import Mathlib

/-!
# filestation: the in-memory authentication manager (`internal/auth/auth.go`)

A shallow embedding of `AuthManager` and its operations, followed by the
properties proved about them.

Modelling conventions.

* `time.Time` is an integer count of nanoseconds on the process clock, and
  `time.Duration` an integer count of nanoseconds. `Before`/`After` are `<`/`>`,
  `Add` is `+`, and `Sub` saturates at the 64-bit duration range as Go's does.
* Every `time.Now()` a method performs is an explicit argument, one per call
  site that is reached, so a method that reads the clock twice takes two
  readings.
* A Go `map[string]V` is an association list with unique keys (`AList`);
  a `for ... range` loop over a map is a fold over its entries.
* The mutex is not modelled: each method is one atomic state transformer
  `AuthManager → ... → AuthManager × result`.
* `golang.org/x/crypto/bcrypt`, the `unicode` tables and the output of
  `generateToken()` are outside the repository and are parameters.
* An `http.HandlerFunc` is a function on the state of the response writer and
  the manager; `net/http` itself (`FormValue`, `Header.Get`, `http.Error`) is a
  parameter.
* A Go string is modelled by a Lean `String` (a sequence of Unicode scalar
  values), so only valid UTF-8 strings are covered; `len(s)` is the UTF-8 byte
  length and `range s` iterates over the code points.
-/

namespace Auth

/-! ## Time -/

/-- An instant, in nanoseconds. -/
abbrev Time := Int

/-- A `time.Duration`, in nanoseconds. -/
abbrev Duration := Int

def Second : Duration := 1000000000
def Minute : Duration := 60 * Second
def Hour : Duration := 60 * Minute

/-- Largest `time.Duration` (`1<<63 - 1`). -/
def maxDuration : Duration := 9223372036854775807

/-- Smallest `time.Duration` (`-1 << 63`). -/
def minDuration : Duration := -9223372036854775808

/-- `t.Sub(u)`: the difference `t - u`, saturated to the range of `Duration`. -/
def Time.Sub (t u : Time) : Duration :=
  let d := t - u
  if d > maxDuration then maxDuration
  else if d < minDuration then minDuration
  else d

/-- `t.Add(d)`. -/
def Time.Add (t : Time) (d : Duration) : Time := t + d

/-- `t.Before(u)`. -/
def Time.Before (t u : Time) : Bool := decide (t < u)

/-- `t.After(u)`. -/
def Time.After (t u : Time) : Bool := decide (t > u)

/-! ## Constants (auth.go, lines 24-31) -/

def sessionDuration : Duration := 24 * Hour
def csrfTokenDuration : Duration := 2 * Hour
def maxLoginAttempts : Nat := 5
def loginWindow : Duration := 15 * Minute
def cleanupInterval : Duration := 1 * Hour
def minPasswordLength : Nat := 8

/-! ## External collaborators -/

/-- The two functions of `golang.org/x/crypto/bcrypt` the manager calls.
`GenerateFromPassword password salt` is `none` when the library returns an
error, `salt` standing for the entropy it draws; `CompareHashAndPassword hash
password` is `true` exactly when the library returns a nil error. -/
structure Bcrypt where
  GenerateFromPassword : String → Nat → Option String
  CompareHashAndPassword : String → String → Bool

/-- A hash produced for a password verifies that password. -/
def Bcrypt.Sound (bc : Bcrypt) : Prop :=
  ∀ password salt hash, bc.GenerateFromPassword password salt = some hash →
    bc.CompareHashAndPassword hash password = true

/-- The character classes of Go's `unicode` package used by `validatePassword`. -/
structure Unicode where
  IsUpper : Char → Bool
  IsLower : Char → Bool
  IsNumber : Char → Bool
  IsPunct : Char → Bool
  IsSymbol : Char → Bool

/-- A code point has one general category: upper-case letters, lower-case
letters and numbers are pairwise disjoint classes. -/
def Unicode.Disjoint (u : Unicode) : Prop :=
  ∀ c, (u.IsUpper c = true → u.IsLower c = false ∧ u.IsNumber c = false) ∧
       (u.IsLower c = true → u.IsNumber c = false)

/-- On ASCII the classes are `A-Z`, `a-z` and `0-9`. -/
def Unicode.AgreesOnASCII (u : Unicode) : Prop :=
  ∀ c : Char, c.toNat < 128 →
    u.IsUpper c = decide (65 ≤ c.toNat ∧ c.toNat ≤ 90) ∧
    u.IsLower c = decide (97 ≤ c.toNat ∧ c.toNat ≤ 122) ∧
    u.IsNumber c = decide (48 ≤ c.toNat ∧ c.toNat ≤ 57)

/-! ## State -/

/-- A Go `map[string]V`. -/
abbrev GoMap (V : Type) := AList (fun _ : String => V)

/-- The fields of `AuthManager` (the mutex apart). -/
structure AuthManager where
  passwordHash : String
  sessions : GoMap Time
  csrfTokens : GoMap Time
  loginAttempts : GoMap (List Time)
  lastCleanup : Time
  deriving DecidableEq

/-- The error type returned by `validatePassword`. -/
structure PasswordError where
  Message : String
  deriving DecidableEq

/-- `New()`: empty stores and the hash of the default password; the error of
`GenerateFromPassword` is discarded, leaving the empty string on failure. -/
def New (bc : Bcrypt) (salt : Nat) (now : Time) : AuthManager :=
  { passwordHash := (bc.GenerateFromPassword "admin123" salt).getD ""
    sessions := ∅
    csrfTokens := ∅
    loginAttempts := ∅
    lastCleanup := now }

/-! ## Rate limiter -/

/-- The pruning loop shared by `isRateLimited` and `cleanup`: starting from an
empty slice, append each attempt with `now.Sub(attempt) < loginWindow`. -/
def validAttempts (now : Time) (attempts : List Time) : List Time :=
  attempts.foldl
    (fun acc attempt => if Time.Sub now attempt < loginWindow then acc ++ [attempt] else acc) []

/-- `isRateLimited(ip)`, reading the clock as `now`. -/
def isRateLimited (am : AuthManager) (ip : String) (now : Time) : AuthManager × Bool :=
  match am.loginAttempts.lookup ip with
  | none => (am, false)
  | some attempts =>
    let valid := validAttempts now attempts
    ({ am with loginAttempts := am.loginAttempts.insert ip valid },
      decide (valid.length ≥ maxLoginAttempts))

/-- `recordFailedAttempt(ip)`, reading the clock as `now`; a missing entry reads
as the nil slice. -/
def recordFailedAttempt (am : AuthManager) (ip : String) (now : Time) : AuthManager :=
  let attempts := (am.loginAttempts.lookup ip).getD []
  { am with loginAttempts := am.loginAttempts.insert ip (attempts ++ [now]) }

/-! ## Sessions -/

/-- `Login(password, ip)`. `now₁` is the clock reading inside `isRateLimited`,
`now₂` the later reading taken when the failure is recorded or the session is
created, and `tok` the value returned by `generateToken()`. -/
def Login (bc : Bcrypt) (am : AuthManager) (password ip : String) (now₁ now₂ : Time)
    (tok : String) : AuthManager × (String × Bool) :=
  let r := isRateLimited am ip now₁
  if r.2 then (r.1, ("", false))
  else if !bc.CompareHashAndPassword r.1.passwordHash password then
    (recordFailedAttempt r.1 ip now₂, ("", false))
  else
    let am₁ := { r.1 with loginAttempts := r.1.loginAttempts.erase ip }
    ({ am₁ with sessions := am₁.sessions.insert tok (Time.Add now₂ sessionDuration) },
      (tok, true))

/-- `VerifySession(token)`; it only reads the state. -/
def VerifySession (am : AuthManager) (token : String) (now : Time) : Bool :=
  match am.sessions.lookup token with
  | none => false
  | some expiry => Time.Before now expiry

/-- `Logout(token)`. -/
def Logout (am : AuthManager) (token : String) : AuthManager :=
  { am with sessions := am.sessions.erase token }

/-! ## Password policy and change -/

/-- The four flags computed by the scanning loop of `validatePassword`. -/
structure Flags where
  hasUpper : Bool
  hasLower : Bool
  hasNumber : Bool
  hasSpecial : Bool
  deriving DecidableEq

/-- One iteration of the loop: the `switch` takes the first case that holds. -/
def scanChar (u : Unicode) (f : Flags) (char : Char) : Flags :=
  if u.IsUpper char then { f with hasUpper := true }
  else if u.IsLower char then { f with hasLower := true }
  else if u.IsNumber char then { f with hasNumber := true }
  else if u.IsPunct char || u.IsSymbol char then { f with hasSpecial := true }
  else f

def lengthMessage : String := "密码长度至少8位"
def compositionMessage : String := "密码必须包含大小写字母和数字"
def mismatchMessage : String := "原密码错误"
def hashFailureMessage : String := "密码加密失败"

/-- `validatePassword(password)`: `none` is the nil error. -/
def validatePassword (u : Unicode) (password : String) : Option PasswordError :=
  if password.utf8ByteSize < minPasswordLength then
    some { Message := lengthMessage }
  else
    let f := password.data.foldl (scanChar u) ⟨false, false, false, false⟩
    if !f.hasUpper || !f.hasLower || !f.hasNumber then
      some { Message := compositionMessage }
    else none

/-- `ChangePassword(oldPassword, newPassword)`; `salt` is the entropy consumed
by `GenerateFromPassword`. -/
def ChangePassword (bc : Bcrypt) (u : Unicode) (am : AuthManager)
    (oldPassword newPassword : String) (salt : Nat) : AuthManager × (Bool × String) :=
  if !bc.CompareHashAndPassword am.passwordHash oldPassword then
    (am, (false, mismatchMessage))
  else
    match validatePassword u newPassword with
    | some err => (am, (false, err.Message))
    | none =>
      match bc.GenerateFromPassword newPassword salt with
      | none => (am, (false, hashFailureMessage))
      | some hash => ({ am with passwordHash := hash, sessions := ∅ }, (true, ""))

/-! ## CSRF tokens -/

/-- `GenerateCSRFToken()`; `tok` is the value returned by `generateToken()`. -/
def GenerateCSRFToken (am : AuthManager) (tok : String) (now : Time) : AuthManager × String :=
  ({ am with csrfTokens := am.csrfTokens.insert tok (Time.Add now csrfTokenDuration) }, tok)

/-- `VerifyCSRFToken(token)`. -/
def VerifyCSRFToken (am : AuthManager) (token : String) (now : Time) : AuthManager × Bool :=
  match am.csrfTokens.lookup token with
  | none => (am, false)
  | some expiry =>
    if Time.After now expiry then
      ({ am with csrfTokens := am.csrfTokens.erase token }, false)
    else
      ({ am with csrfTokens := am.csrfTokens.erase token }, true)

/-! ## Reclaimer -/

/-- The first two loops of `cleanup`: visit every entry of the map and delete
the keys whose expiry lies before `now`. -/
def sweepExpired (now : Time) (m : GoMap Time) : GoMap Time :=
  m.entries.foldl (fun acc e => if Time.After now e.2 then acc.erase e.1 else acc) m

/-- The third loop of `cleanup`: visit every address, prune its attempts, and
delete the entry when nothing is left. -/
def sweepAttempts (now : Time) (m : GoMap (List Time)) : GoMap (List Time) :=
  m.entries.foldl
    (fun acc e =>
      let valid := validAttempts now e.2
      if valid.length = 0 then acc.erase e.1 else acc.insert e.1 valid) m

/-- `cleanup()`, reading the clock as `now`. -/
def cleanup (am : AuthManager) (now : Time) : AuthManager :=
  { am with
    sessions := sweepExpired now am.sessions
    csrfTokens := sweepExpired now am.csrfTokens
    loginAttempts := sweepAttempts now am.loginAttempts }

/-- What the third loop of `cleanup` leaves for an address whose recorded
attempts are `attempts`: nothing when no attempt is valid, else the valid ones. -/
def prunedEntry (now : Time) (attempts : List Time) : Option (List Time) :=
  if (validAttempts now attempts).length = 0 then none else some (validAttempts now attempts)

/-! ## Request filters -/

/-- The parts of an `*http.Request` the CSRF gate reads: the method, the
result of `r.FormValue(key)` and the result of `r.Header.Get(key)`. The form
parsing that `FormValue` triggers inside `net/http` is not modelled. -/
structure Request where
  Method : String
  FormValue : String → String
  HeaderGet : String → String

/-- An `http.HandlerFunc`. `W` is the state of the response writer and of
everything else a handler can touch apart from the manager, which is threaded
explicitly because handlers call its methods. -/
abbrev HandlerFunc (W : Type) := W → AuthManager → Request → W × AuthManager

/-- `http.StatusForbidden`. -/
def StatusForbidden : Nat := 403

/-- `CSRFMiddleware(next)`. `httpError w msg code` is `http.Error(w, msg, code)`
and `now` the clock reading taken by `VerifyCSRFToken` when it is reached. -/
def CSRFMiddleware {W : Type} (httpError : W → String → Nat → W) (next : HandlerFunc W)
    (now : Time) : HandlerFunc W :=
  fun w am r =>
    if r.Method = "GET" ∨ r.Method = "HEAD" then next w am r
    else
      let token :=
        if r.FormValue "csrf_token" = "" then r.HeaderGet "X-CSRF-Token"
        else r.FormValue "csrf_token"
      let v := VerifyCSRFToken am token now
      if !v.2 then (httpError w "Invalid CSRF token" StatusForbidden, v.1)
      else next w v.1 r

/-- A downstream handler that only raises a flag, to observe whether it ran. -/
def flagHandler : HandlerFunc Bool := fun _ am _ => (true, am)

/-- An `http.Error` that leaves the flag of `flagHandler` alone. -/
def flagError : Bool → String → Nat → Bool := fun w _ _ => w

/-! ## Operations and traces -/

/-- One call of a public method (or one tick of the reclaimer), together with
the clock readings and random tokens it consumes. -/
inductive Op where
  | Login (password ip : String) (now₁ now₂ : Time) (tok : String)
  | VerifySession (token : String) (now : Time)
  | Logout (token : String)
  | ChangePassword (oldPassword newPassword : String) (salt : Nat)
  | GenerateCSRFToken (tok : String) (now : Time)
  | VerifyCSRFToken (token : String) (now : Time)
  | cleanup (now : Time)
  deriving DecidableEq

/-- The state after an operation. -/
def step (bc : Bcrypt) (u : Unicode) (am : AuthManager) : Op → AuthManager
  | .Login password ip now₁ now₂ tok => (Login bc am password ip now₁ now₂ tok).1
  | .VerifySession _ _ => am
  | .Logout token => Logout am token
  | .ChangePassword oldPassword newPassword salt =>
    (ChangePassword bc u am oldPassword newPassword salt).1
  | .GenerateCSRFToken tok now => (GenerateCSRFToken am tok now).1
  | .VerifyCSRFToken token now => (VerifyCSRFToken am token now).1
  | .cleanup now => cleanup am now

/-- The state after a sequence of operations. -/
def run (bc : Bcrypt) (u : Unicode) (am : AuthManager) (ops : List Op) : AuthManager :=
  ops.foldl (step bc u) am

/-- The clock readings an operation takes. -/
def Op.readings : Op → List Time
  | .Login _ _ now₁ now₂ _ => [now₁, now₂]
  | .VerifySession _ now => [now]
  | .Logout _ => []
  | .ChangePassword _ _ _ => []
  | .GenerateCSRFToken _ now => [now]
  | .VerifyCSRFToken _ now => [now]
  | .cleanup now => [now]

/-- Whether the operation is a `Login` from address `ip`. -/
def Op.isLoginFrom (ip : String) : Op → Bool
  | .Login _ ip₁ _ _ _ => decide (ip₁ = ip)
  | _ => false

/-- The instant at which a `Login` from `ip` records its failure, when the
operation is such a call. -/
def Op.recordTime (ip : String) : Op → Option Time
  | .Login _ ip₁ _ now₂ _ => if ip₁ = ip then some now₂ else none
  | _ => none

/-- Whether the operation is a `GenerateCSRFToken` that returns `t`. -/
def Op.issuesCSRF (t : String) : Op → Bool
  | .GenerateCSRFToken tok _ => decide (tok = t)
  | _ => false

/-- Whether the operation is a `VerifyCSRFToken` of `t`. -/
def Op.verifiesCSRF (t : String) : Op → Bool
  | .VerifyCSRFToken token _ => decide (token = t)
  | _ => false

/-- Every `Login` from `ip` in the trace, run from `am`, is let through by the
rate limiter and then fails on the password. -/
def loginsFailOnPassword (bc : Bcrypt) (u : Unicode) (ip : String) :
    AuthManager → List Op → Bool
  | _, [] => true
  | am, op :: ops =>
    (match op with
      | .Login password ip₁ now₁ _ _ =>
        if ip₁ = ip then
          !(isRateLimited am ip₁ now₁).2 &&
            !bc.CompareHashAndPassword (isRateLimited am ip₁ now₁).1.passwordHash password
        else true
      | _ => true) &&
    loginsFailOnPassword bc u ip (step bc u am op) ops

/-- The number of attempts recorded for `ip` at or after the instant `first`. -/
def attemptsSince (first : Time) (ip : String) (am : AuthManager) : Nat :=
  ((am.loginAttempts.lookup ip).getD []).countP (fun a => decide (first ≤ a))

/-! ## Concrete collaborators used to evaluate the definitions -/

/-- The `unicode` classes on Latin-1 (U+0000 to U+00FF), as in Go's table for
that range; code points above U+00FF are left unclassified, and the
evaluations below only use code points of the range. -/
def latin1 : Unicode where
  IsUpper c := decide ((65 ≤ c.toNat ∧ c.toNat ≤ 90) ∨ (192 ≤ c.toNat ∧ c.toNat ≤ 214) ∨
    (216 ≤ c.toNat ∧ c.toNat ≤ 222))
  IsLower c := decide ((97 ≤ c.toNat ∧ c.toNat ≤ 122) ∨ c.toNat = 181 ∨
    (223 ≤ c.toNat ∧ c.toNat ≤ 246) ∨ (248 ≤ c.toNat ∧ c.toNat ≤ 255))
  IsNumber c := decide ((48 ≤ c.toNat ∧ c.toNat ≤ 57) ∨ c.toNat = 178 ∨ c.toNat = 179 ∨
    c.toNat = 185 ∨ (188 ≤ c.toNat ∧ c.toNat ≤ 190))
  IsPunct c := decide (c.toNat ∈ [33, 34, 35, 37, 38, 39, 40, 41, 42, 44, 45, 46, 47, 58, 59,
    63, 64, 91, 92, 93, 95, 123, 125, 161, 167, 171, 182, 183, 187, 191])
  IsSymbol c := decide (c.toNat ∈ [36, 43, 60, 61, 62, 94, 96, 124, 126, 162, 163, 164, 165,
    166, 168, 169, 172, 174, 175, 176, 177, 180, 184, 215, 247])

/-- A stand-in for bcrypt with the two behaviours of the library that matter
to the manager: generation fails with `ErrPasswordTooLong` on a password of more
than 72 bytes, and a generated hash verifies exactly the password it was made
from. The hash itself is a transparent tag. -/
def tagBcrypt : Bcrypt where
  GenerateFromPassword password _ :=
    if password.utf8ByteSize > 72 then none else some ("bcrypt$" ++ password)
  CompareHashAndPassword hash password := decide (hash = "bcrypt$" ++ password)

/-- A manager whose password is `admin123`, with one live session, one CSRF
token and one address that has two recorded failures. -/
def sample : AuthManager where
  passwordHash := "bcrypt$admin123"
  sessions := (∅ : GoMap Time).insert "s1" 100
  csrfTokens := (∅ : GoMap Time).insert "c1" 100
  loginAttempts := (∅ : GoMap (List Time)).insert "10.0.0.1" [10, 20]
  lastCleanup := 0

/-- A manager in which address `10.0.0.1` has five recorded failures, at the
instants 0, 1, 2, 3 and 4. -/
def fiveFailures : AuthManager where
  passwordHash := "bcrypt$admin123"
  sessions := ∅
  csrfTokens := ∅
  loginAttempts := (∅ : GoMap (List Time)).insert "10.0.0.1" [0, 1, 2, 3, 4]
  lastCleanup := 0

/-- A `POST` request that carries `c1` in the form field `csrf_token`. -/
def postWithForm : Request where
  Method := "POST"
  FormValue key := if key = "csrf_token" then "c1" else ""
  HeaderGet _ := ""

/-- A `POST` request that carries `c1` in the header `X-CSRF-Token` only. -/
def postWithHeader : Request where
  Method := "POST"
  FormValue _ := ""
  HeaderGet key := if key = "X-CSRF-Token" then "c1" else ""

/-- A `GET` request without any token. -/
def plainGet : Request where
  Method := "GET"
  FormValue _ := ""
  HeaderGet _ := ""

/-- A `DELETE` request without any token. -/
def plainDelete : Request where
  Method := "DELETE"
  FormValue _ := ""
  HeaderGet _ := ""

/-- An `OPTIONS` request without any token. -/
def plainOptions : Request where
  Method := "OPTIONS"
  FormValue _ := ""
  HeaderGet _ := ""

/-- A `TRACE` request without any token. -/
def plainTrace : Request where
  Method := "TRACE"
  FormValue _ := ""
  HeaderGet _ := ""

/-- A downstream handler that answers with status 200; the state of the
response writer is the status written, if any. -/
def statusHandler : HandlerFunc (Option Nat) := fun _ am _ => (some 200, am)

/-- An `http.Error` that writes its status code. -/
def statusError : Option Nat → String → Nat → Option Nat := fun _ _ code => some code

/-- A password of 73 bytes that satisfies the policy. -/
def longPassword : String := "Abcd1234" ++ String.mk (List.replicate 65 'x')

/-! # Properties -/

/-! ## Auxiliary facts -/

theorem loginWindow_eq : loginWindow = (900000000000 : Int) := by
  norm_num [loginWindow, Minute, Second]

/-- Saturation never changes the comparison with the window. -/
theorem sub_lt_window (now a : Time) :
    Time.Sub now a < loginWindow ↔ now - a < loginWindow := by
  rw [loginWindow_eq]
  unfold Time.Sub
  simp only [maxDuration, minDuration]
  have h1 : ∀ x : Int, x = now - a →
      ((if x > 9223372036854775807 then (9223372036854775807 : Int)
        else if x < -9223372036854775808 then -9223372036854775808 else x) < 900000000000
        ↔ x < 900000000000) := by
    intro x _
    split_ifs <;> omega
  exact h1 _ rfl

/-- The pruning loop is a filter: it keeps, in order, the attempts younger than
the window. -/
theorem validAttempts_eq_filter (now : Time) (l : List Time) :
    validAttempts now l = l.filter (fun a => decide (now - a < loginWindow)) := by
  unfold validAttempts
  suffices h : ∀ acc : List Time,
      l.foldl (fun acc attempt =>
          if Time.Sub now attempt < loginWindow then acc ++ [attempt] else acc) acc
        = acc ++ l.filter (fun a => decide (now - a < loginWindow)) by
    simpa using h []
  induction l with
  | nil => intro acc; simp
  | cons a l ih =>
    intro acc
    rw [List.foldl_cons, List.filter_cons]
    by_cases h : now - a < loginWindow
    · rw [if_pos ((sub_lt_window now a).2 h), ih]; simp [h]
    · rw [if_neg (fun hc => h ((sub_lt_window now a).1 hc)), ih]; simp [h]

/-- A map in which no key is bound is the empty map. -/
theorem goMap_eq_empty {V : Type} (m : GoMap V) (h : ∀ k, m.lookup k = none) : m = ∅ := by
  apply AList.ext
  rcases hm : m.entries with _ | ⟨e, l⟩
  · rfl
  · exfalso
    have := h e.1
    rw [AList.lookup_eq_none] at this
    apply this
    rw [AList.mem_keys, AList.keys, hm]
    simp [List.keys]


theorem foldl_sweepExpired_lookup (now : Time) (k : String)
    (l : List (Sigma fun _ : String => Time)) :
    ∀ acc : GoMap Time,
      (l.foldl (fun acc e => if Time.After now e.2 then acc.erase e.1 else acc) acc).lookup k
        = if (∃ e ∈ l, e.1 = k ∧ now > e.2) then none else acc.lookup k := by
  induction l with
  | nil => intro acc; simp
  | cons e l ih =>
    intro acc
    rw [List.foldl_cons, ih]
    by_cases hl : ∃ e ∈ l, e.1 = k ∧ now > e.2
    · have : ∃ x ∈ e :: l, x.1 = k ∧ now > x.2 := by
        obtain ⟨x, hx, h⟩ := hl
        exact ⟨x, List.mem_cons_of_mem _ hx, h⟩
      rw [if_pos hl, if_pos this]
    · rw [if_neg hl]
      by_cases he : e.1 = k ∧ now > e.2
      · have : ∃ x ∈ e :: l, x.1 = k ∧ now > x.2 := ⟨e, List.mem_cons_self _ _, he⟩
        rw [if_pos this]
        have h2 : Time.After now e.2 = true := by simpa [Time.After] using he.2
        rw [if_pos h2, ← he.1]
        exact AList.lookup_erase _ _
      · have : ¬ ∃ x ∈ e :: l, x.1 = k ∧ now > x.2 := by
          rintro ⟨x, hx, h⟩
          rcases List.mem_cons.1 hx with rfl | hx
          · exact he h
          · exact hl ⟨x, hx, h⟩
        rw [if_neg this]
        by_cases h2 : Time.After now e.2 = true
        · rw [if_pos h2]
          have hne : k ≠ e.1 := by
            intro hk
            exact he ⟨hk.symm, by simpa [Time.After] using h2⟩
          exact AList.lookup_erase_ne hne
        · rw [if_neg h2]

theorem lookup_sweepExpired (now : Time) (m : GoMap Time) (k : String) :
    (sweepExpired now m).lookup k = (m.lookup k).filter (fun expiry => !Time.After now expiry) := by
  unfold sweepExpired
  rw [foldl_sweepExpired_lookup]
  cases hk : m.lookup k with
  | none =>
    have : ¬ ∃ e ∈ m.entries, e.1 = k ∧ now > e.2 := by
      rintro ⟨⟨a, b⟩, he, rfl, _⟩
      have : b ∈ m.lookup a := AList.mem_lookup_iff.2 he
      rw [hk] at this
      cases this
    rw [if_neg this]; rfl
  | some v =>
    have hmem : (⟨k, v⟩ : Sigma fun _ : String => Time) ∈ m.entries :=
      AList.mem_lookup_iff.1 (by rw [hk]; exact rfl)
    by_cases hv : now > v
    · rw [if_pos ⟨⟨k, v⟩, hmem, rfl, hv⟩]
      simp [Option.filter, Time.After, hv]
    · have : ¬ ∃ e ∈ m.entries, e.1 = k ∧ now > e.2 := by
        rintro ⟨⟨a, b⟩, he, rfl, hb⟩
        have : b ∈ m.lookup a := AList.mem_lookup_iff.2 he
        rw [hk] at this
        have hbv : v = b := by simpa using this
        exact hv (hbv ▸ hb)
      rw [if_neg this]
      simp [Option.filter, Time.After, hv]

theorem foldl_sweepAttempts_lookup (now : Time) (k : String) (v : List Time)
    (l : List (Sigma fun _ : String => List Time)) :
    ∀ acc : GoMap (List Time), (∀ e ∈ l, e.1 = k → e.2 = v) →
      (l.foldl (fun acc e =>
          let valid := validAttempts now e.2
          if valid.length = 0 then acc.erase e.1 else acc.insert e.1 valid) acc).lookup k
        = if (∃ e ∈ l, e.1 = k) then prunedEntry now v else acc.lookup k := by
  induction l with
  | nil => intro acc _; simp
  | cons e l ih =>
    intro acc hv
    rw [List.foldl_cons, ih _ (fun x hx => hv x (List.mem_cons_of_mem _ hx))]
    by_cases hl : ∃ e ∈ l, e.1 = k
    · have : ∃ x ∈ e :: l, x.1 = k := by
        obtain ⟨x, hx, h⟩ := hl
        exact ⟨x, List.mem_cons_of_mem _ hx, h⟩
      rw [if_pos hl, if_pos this]
    · rw [if_neg hl]
      by_cases he : e.1 = k
      · have : ∃ x ∈ e :: l, x.1 = k := ⟨e, List.mem_cons_self _ _, he⟩
        rw [if_pos this]
        have hev : e.2 = v := hv e (List.mem_cons_self _ _) he
        simp only [prunedEntry, hev]
        by_cases h0 : (validAttempts now v).length = 0
        · rw [if_pos h0, if_pos h0, ← he]
          exact AList.lookup_erase _ _
        · rw [if_neg h0, if_neg h0, ← he]
          exact AList.lookup_insert _
      · have : ¬ ∃ x ∈ e :: l, x.1 = k := by
          rintro ⟨x, hx, h⟩
          rcases List.mem_cons.1 hx with rfl | hx
          · exact he h
          · exact hl ⟨x, hx, h⟩
        rw [if_neg this]
        have hne : k ≠ e.1 := fun hk => he hk.symm
        simp only []
        split_ifs
        · exact AList.lookup_erase_ne hne
        · exact AList.lookup_insert_ne hne

theorem lookup_sweepAttempts (now : Time) (m : GoMap (List Time)) (k : String) :
    (sweepAttempts now m).lookup k = (m.lookup k).bind (prunedEntry now) := by
  unfold sweepAttempts
  cases hk : m.lookup k with
  | none =>
    rw [foldl_sweepAttempts_lookup now k [] m.entries m]
    · have : ¬ ∃ e ∈ m.entries, e.1 = k := by
        rintro ⟨⟨a, b⟩, he, rfl⟩
        have : b ∈ m.lookup a := AList.mem_lookup_iff.2 he
        rw [hk] at this
        cases this
      rw [if_neg this, hk]; rfl
    · rintro ⟨a, b⟩ he rfl
      have : b ∈ m.lookup a := AList.mem_lookup_iff.2 he
      rw [hk] at this
      cases this
  | some v =>
    have hmem : (⟨k, v⟩ : Sigma fun _ : String => List Time) ∈ m.entries :=
      AList.mem_lookup_iff.1 (by rw [hk]; exact rfl)
    rw [foldl_sweepAttempts_lookup now k v m.entries m]
    · rw [if_pos ⟨⟨k, v⟩, hmem, rfl⟩]; rfl
    · rintro ⟨a, b⟩ he rfl
      have : b ∈ m.lookup a := AList.mem_lookup_iff.2 he
      rw [hk] at this
      have hbv : v = b := by simpa using this
      exact hbv.symm

/-- Deleting a key that is not bound leaves the map as it is. -/
theorem goMap_erase_absent {V : Type} (m : GoMap V) (k : String) (h : m.lookup k = none) :
    m.erase k = m := by
  apply AList.ext
  rw [AList.lookup_eq_none] at h
  exact List.kerase_of_not_mem_keys h

/-- The state left by `VerifyCSRFToken`: the token is deleted in every branch
(in the branch where it is missing there is nothing to delete). -/
theorem verifyCSRFToken_fst (am : AuthManager) (token : String) (now : Time) :
    (VerifyCSRFToken am token now).1 = { am with csrfTokens := am.csrfTokens.erase token } := by
  unfold VerifyCSRFToken
  cases h : am.csrfTokens.lookup token with
  | none =>
    dsimp only
    rw [goMap_erase_absent _ _ h]
  | some e =>
    dsimp only
    split_ifs <;> rfl

/-- The result of `VerifyCSRFToken`. -/
theorem verifyCSRFToken_snd (am : AuthManager) (token : String) (now : Time) :
    (VerifyCSRFToken am token now).2 =
      match am.csrfTokens.lookup token with
      | none => false
      | some expiry => !Time.After now expiry := by
  unfold VerifyCSRFToken
  cases h : am.csrfTokens.lookup token with
  | none => rfl
  | some e =>
    dsimp only
    split_ifs with hx <;> simp [hx]

/-- The flags after scanning a list of code points. -/
theorem foldl_scanChar (u : Unicode) (l : List Char) :
    ∀ f : Flags,
      (l.foldl (scanChar u) f).hasUpper = (f.hasUpper || l.any u.IsUpper) ∧
      (l.foldl (scanChar u) f).hasLower
        = (f.hasLower || l.any (fun c => !u.IsUpper c && u.IsLower c)) ∧
      (l.foldl (scanChar u) f).hasNumber
        = (f.hasNumber || l.any (fun c => !u.IsUpper c && !u.IsLower c && u.IsNumber c)) := by
  induction l with
  | nil => intro f; simp
  | cons c l ih =>
    intro f
    rw [List.foldl_cons]
    obtain ⟨h1, h2, h3⟩ := ih (scanChar u f c)
    rw [h1, h2, h3]
    unfold scanChar
    cases hU : u.IsUpper c <;> cases hL : u.IsLower c <;> cases hN : u.IsNumber c <;>
      cases hP : (u.IsPunct c || u.IsSymbol c) <;>
        simp [hU, hL, hN, hP, Bool.or_assoc]

/-- `validatePassword` in closed form. -/
theorem validatePassword_eq (u : Unicode) (p : String) :
    validatePassword u p =
      if p.utf8ByteSize < 8 then some { Message := lengthMessage }
      else if p.data.any u.IsUpper && p.data.any (fun c => !u.IsUpper c && u.IsLower c) &&
          p.data.any (fun c => !u.IsUpper c && !u.IsLower c && u.IsNumber c) then none
      else some { Message := compositionMessage } := by
  unfold validatePassword minPasswordLength
  obtain ⟨h1, h2, h3⟩ := foldl_scanChar u p.data ⟨false, false, false, false⟩
  by_cases hlen : p.utf8ByteSize < 8
  · rw [if_pos hlen, if_pos hlen]
  · rw [if_neg hlen, if_neg hlen]
    simp only [h1, h2, h3, Bool.false_or]
    cases p.data.any u.IsUpper <;> cases p.data.any (fun c => !u.IsUpper c && u.IsLower c) <;>
      cases p.data.any (fun c => !u.IsUpper c && !u.IsLower c && u.IsNumber c) <;> simp

theorem latin1_disjoint : latin1.Disjoint := by
  intro c
  simp only [latin1, decide_eq_true_eq, decide_eq_false_iff_not]
  omega

theorem latin1_agreesOnASCII : latin1.AgreesOnASCII := by
  intro c hc
  simp only [latin1]
  generalize c.toNat = n at hc
  refine ⟨?_, ?_, ?_⟩ <;>
  · rw [Bool.eq_iff_iff]; simp only [decide_eq_true_eq]; omega

/-- The classes of an ASCII code point under tables that agree on ASCII. -/
theorem ascii_class (u : Unicode) (hu : u.AgreesOnASCII) (c : Char) (n : Nat)
    (hn : c.toNat = n) (h128 : n < 128) :
    u.IsUpper c = decide (65 ≤ n ∧ n ≤ 90) ∧
    u.IsLower c = decide (97 ≤ n ∧ n ≤ 122) ∧
    u.IsNumber c = decide (48 ≤ n ∧ n ≤ 57) := by
  subst hn
  exact hu c h128

theorem validatePassword_abcdefgh (u : Unicode) (hu : u.AgreesOnASCII) :
    validatePassword u "abcdefgh" = some { Message := compositionMessage } := by
  rw [validatePassword_eq]
  have hU : ("abcdefgh" : String).data.any u.IsUpper = false := by
    rw [List.any_eq_false]
    intro c hc
    have h128 : c.toNat < 128 := by
      simp only [List.mem_cons, List.mem_singleton, List.not_mem_nil, or_false] at hc
      rcases hc with rfl | rfl | rfl | rfl | rfl | rfl | rfl | rfl <;> decide
    have hup : ¬ (65 ≤ c.toNat ∧ c.toNat ≤ 90) := by
      simp only [List.mem_cons, List.mem_singleton, List.not_mem_nil, or_false] at hc
      rcases hc with rfl | rfl | rfl | rfl | rfl | rfl | rfl | rfl <;> decide
    rw [(hu c h128).1]
    simp [hup]
  rw [if_neg (by decide), hU]
  rfl

theorem validatePassword_Abcd1234 (u : Unicode) (hu : u.AgreesOnASCII) :
    validatePassword u "Abcd1234" = none := by
  rw [validatePassword_eq]
  have hA := ascii_class u hu 'A' 65 (by decide) (by decide)
  have hb := ascii_class u hu 'b' 98 (by decide) (by decide)
  have h1 := ascii_class u hu '1' 49 (by decide) (by decide)
  have e1 : ("Abcd1234" : String).data.any u.IsUpper = true := by
    rw [List.any_eq_true]
    exact ⟨'A', by decide, by rw [hA.1]; decide⟩
  have e2 : ("Abcd1234" : String).data.any (fun c => !u.IsUpper c && u.IsLower c) = true := by
    rw [List.any_eq_true]
    exact ⟨'b', by decide, by rw [hb.1, hb.2.1]; decide⟩
  have e3 : ("Abcd1234" : String).data.any
      (fun c => !u.IsUpper c && !u.IsLower c && u.IsNumber c) = true := by
    rw [List.any_eq_true]
    exact ⟨'1', by decide, by rw [h1.1, h1.2.1, h1.2.2]; decide⟩
  rw [if_neg (by decide), e1, e2, e3]
  rfl

/-- Every reason `validatePassword` gives is one of its two messages. -/
theorem validatePassword_message (u : Unicode) (p : String) (err : PasswordError)
    (h : validatePassword u p = some err) :
    err.Message = lengthMessage ∨ err.Message = compositionMessage := by
  rw [validatePassword_eq] at h
  split_ifs at h
  · left; cases h; rfl
  · right; cases h; rfl

/-- `ChangePassword` when the old password does not verify. -/
theorem changePassword_mismatch (bc : Bcrypt) (u : Unicode) (am : AuthManager)
    (oldPassword newPassword : String) (salt : Nat)
    (hold : bc.CompareHashAndPassword am.passwordHash oldPassword = false) :
    ChangePassword bc u am oldPassword newPassword salt = (am, (false, mismatchMessage)) := by
  unfold ChangePassword
  rw [hold]
  rfl

/-- `ChangePassword` when the new password violates the policy. -/
theorem changePassword_rejected (bc : Bcrypt) (u : Unicode) (am : AuthManager)
    (oldPassword newPassword : String) (salt : Nat) (err : PasswordError)
    (hold : bc.CompareHashAndPassword am.passwordHash oldPassword = true)
    (hv : validatePassword u newPassword = some err) :
    ChangePassword bc u am oldPassword newPassword salt = (am, (false, err.Message)) := by
  unfold ChangePassword
  rw [hold, hv]
  rfl

/-- `ChangePassword` when hashing the new password fails. -/
theorem changePassword_hashFailure (bc : Bcrypt) (u : Unicode) (am : AuthManager)
    (oldPassword newPassword : String) (salt : Nat)
    (hold : bc.CompareHashAndPassword am.passwordHash oldPassword = true)
    (hv : validatePassword u newPassword = none)
    (hg : bc.GenerateFromPassword newPassword salt = none) :
    ChangePassword bc u am oldPassword newPassword salt = (am, (false, hashFailureMessage)) := by
  unfold ChangePassword
  rw [hold, hv]
  simp only [Bool.not_true, Bool.false_eq_true, if_false]
  rw [hg]

/-- `ChangePassword` when every step succeeds. -/
theorem changePassword_applied (bc : Bcrypt) (u : Unicode) (am : AuthManager)
    (oldPassword newPassword : String) (salt : Nat) (hash : String)
    (hold : bc.CompareHashAndPassword am.passwordHash oldPassword = true)
    (hv : validatePassword u newPassword = none)
    (hg : bc.GenerateFromPassword newPassword salt = some hash) :
    ChangePassword bc u am oldPassword newPassword salt
      = ({ am with passwordHash := hash, sessions := ∅ }, (true, "")) := by
  unfold ChangePassword
  rw [hold, hv]
  simp only [Bool.not_true, Bool.false_eq_true, if_false]
  rw [hg]

theorem tagBcrypt_sound : tagBcrypt.Sound := by
  intro password salt hash h
  simp only [tagBcrypt] at h ⊢
  split_ifs at h
  cases h
  simp

/-- Deleting a key just written is deleting it from the original map. -/
theorem goMap_erase_insert {V : Type} (m : GoMap V) (k : String) (v : V) :
    (m.insert k v).erase k = m.erase k := by
  apply AList.ext
  show List.kerase k (Sigma.mk k v :: List.kerase k m.entries) = List.kerase k m.entries
  exact List.kerase_cons_eq rfl

/-- The result of `isRateLimited`. -/
theorem isRateLimited_snd (am : AuthManager) (ip : String) (now : Time) :
    (isRateLimited am ip now).2 =
      match am.loginAttempts.lookup ip with
      | none => false
      | some attempts => decide (maxLoginAttempts ≤ (validAttempts now attempts).length) := by
  unfold isRateLimited
  cases am.loginAttempts.lookup ip <;> rfl

/-- The fields `isRateLimited` leaves alone. -/
theorem isRateLimited_fst_fields (am : AuthManager) (ip : String) (now : Time) :
    (isRateLimited am ip now).1.passwordHash = am.passwordHash ∧
    (isRateLimited am ip now).1.sessions = am.sessions ∧
    (isRateLimited am ip now).1.csrfTokens = am.csrfTokens ∧
    (isRateLimited am ip now).1.lastCleanup = am.lastCleanup := by
  unfold isRateLimited
  cases am.loginAttempts.lookup ip <;> exact ⟨rfl, rfl, rfl, rfl⟩

/-- The attempt records after `isRateLimited`: the entry of `ip`, if any, is
replaced by its valid attempts; the other entries are kept. -/
theorem isRateLimited_fst_attempts (am : AuthManager) (ip : String) (now : Time) (k : String) :
    (isRateLimited am ip now).1.loginAttempts.lookup k =
      if k = ip then (am.loginAttempts.lookup ip).map (validAttempts now)
      else am.loginAttempts.lookup k := by
  unfold isRateLimited
  cases h : am.loginAttempts.lookup ip with
  | none =>
    dsimp only
    split_ifs with hk
    · rw [hk, h]; rfl
    · rfl
  | some attempts =>
    dsimp only
    split_ifs with hk
    · rw [hk]; exact AList.lookup_insert _
    · exact AList.lookup_insert_ne hk

/-- Deleting `ip` after `isRateLimited ip` is deleting it from the original
records. -/
theorem isRateLimited_fst_erase (am : AuthManager) (ip : String) (now : Time) :
    (isRateLimited am ip now).1.loginAttempts.erase ip = am.loginAttempts.erase ip := by
  unfold isRateLimited
  cases h : am.loginAttempts.lookup ip with
  | none => rfl
  | some attempts => exact goMap_erase_insert _ _ _

/-- `Login` when the address is let through and the password verifies. -/
theorem login_applied (bc : Bcrypt) (am : AuthManager) (password ip : String)
    (now₁ now₂ : Time) (tok : String)
    (hlim : (isRateLimited am ip now₁).2 = false)
    (hpw : bc.CompareHashAndPassword am.passwordHash password = true) :
    Login bc am password ip now₁ now₂ tok =
      ({ am with
          sessions := am.sessions.insert tok (now₂ + sessionDuration)
          loginAttempts := am.loginAttempts.erase ip }, (tok, true)) := by
  obtain ⟨h1, h2, h3, h4⟩ := isRateLimited_fst_fields am ip now₁
  have h5 := isRateLimited_fst_erase am ip now₁
  unfold Login
  simp only [hlim, Bool.false_eq_true, if_false, h1, hpw, Bool.not_true, h2, h3, h4, h5,
    Time.Add]

/-- `Login` when the address is let through and the password does not verify. -/
theorem login_wrong_password (bc : Bcrypt) (am : AuthManager) (password ip : String)
    (now₁ now₂ : Time) (tok : String)
    (hlim : (isRateLimited am ip now₁).2 = false)
    (hpw : bc.CompareHashAndPassword am.passwordHash password = false) :
    Login bc am password ip now₁ now₂ tok =
      (recordFailedAttempt (isRateLimited am ip now₁).1 ip now₂, ("", false)) := by
  obtain ⟨h1, _, _, _⟩ := isRateLimited_fst_fields am ip now₁
  unfold Login
  simp only [hlim, Bool.false_eq_true, if_false, h1, hpw, Bool.not_false, if_true]

/-- `Login` when the address is blocked. -/
theorem login_blocked (bc : Bcrypt) (am : AuthManager) (password ip : String)
    (now₁ now₂ : Time) (tok : String)
    (hlim : (isRateLimited am ip now₁).2 = true) :
    Login bc am password ip now₁ now₂ tok = ((isRateLimited am ip now₁).1, ("", false)) := by
  unfold Login
  simp only [hlim, if_true]

/-- An address without an entry is let through and the state is not touched. -/
theorem isRateLimited_absent (am : AuthManager) (ip : String) (now : Time)
    (h : am.loginAttempts.lookup ip = none) : isRateLimited am ip now = (am, false) := by
  unfold isRateLimited
  rw [h]

/-- `Login` never touches the CSRF store. -/
theorem login_csrfTokens (bc : Bcrypt) (am : AuthManager) (password ip : String)
    (now₁ now₂ : Time) (tok : String) :
    (Login bc am password ip now₁ now₂ tok).1.csrfTokens = am.csrfTokens := by
  obtain ⟨_, _, h3, _⟩ := isRateLimited_fst_fields am ip now₁
  cases hlim : (isRateLimited am ip now₁).2
  · cases hpw : bc.CompareHashAndPassword am.passwordHash password
    · rw [login_wrong_password bc am password ip now₁ now₂ tok hlim hpw]
      exact h3
    · rw [login_applied bc am password ip now₁ now₂ tok hlim hpw]
  · rw [login_blocked bc am password ip now₁ now₂ tok hlim]
    exact h3

/-- `ChangePassword` never touches the CSRF store nor the attempt records. -/
theorem changePassword_other_stores (bc : Bcrypt) (u : Unicode) (am : AuthManager)
    (oldPassword newPassword : String) (salt : Nat) :
    (ChangePassword bc u am oldPassword newPassword salt).1.csrfTokens = am.csrfTokens ∧
    (ChangePassword bc u am oldPassword newPassword salt).1.loginAttempts
      = am.loginAttempts := by
  cases hold : bc.CompareHashAndPassword am.passwordHash oldPassword
  · rw [changePassword_mismatch bc u am oldPassword newPassword salt hold]
    exact ⟨rfl, rfl⟩
  · cases hv : validatePassword u newPassword with
    | some err =>
      rw [changePassword_rejected bc u am oldPassword newPassword salt err hold hv]
      exact ⟨rfl, rfl⟩
    | none =>
      cases hg : bc.GenerateFromPassword newPassword salt with
      | none =>
        rw [changePassword_hashFailure bc u am oldPassword newPassword salt hold hv hg]
        exact ⟨rfl, rfl⟩
      | some hash =>
        rw [changePassword_applied bc u am oldPassword newPassword salt hash hold hv hg]
        exact ⟨rfl, rfl⟩

/-- The CSRF store after one operation, entry by entry. -/
theorem step_csrfTokens_lookup (bc : Bcrypt) (u : Unicode) (am : AuthManager) (op : Op)
    (t : String) :
    (step bc u am op).csrfTokens.lookup t =
      match op with
      | .GenerateCSRFToken tok now =>
        if t = tok then some (now + csrfTokenDuration) else am.csrfTokens.lookup t
      | .VerifyCSRFToken token _ => if t = token then none else am.csrfTokens.lookup t
      | .cleanup now => (am.csrfTokens.lookup t).filter (fun expiry => !Time.After now expiry)
      | _ => am.csrfTokens.lookup t := by
  cases op with
  | Login password ip now₁ now₂ tok =>
    show (Login bc am password ip now₁ now₂ tok).1.csrfTokens.lookup t = _
    rw [login_csrfTokens]
  | VerifySession token now => rfl
  | Logout token => rfl
  | ChangePassword oldPassword newPassword salt =>
    show (ChangePassword bc u am oldPassword newPassword salt).1.csrfTokens.lookup t = _
    rw [(changePassword_other_stores bc u am oldPassword newPassword salt).1]
  | GenerateCSRFToken tok now =>
    show (am.csrfTokens.insert tok (Time.Add now csrfTokenDuration)).lookup t
      = if t = tok then some (now + csrfTokenDuration) else am.csrfTokens.lookup t
    split_ifs with h
    · rw [h]; exact AList.lookup_insert _
    · exact AList.lookup_insert_ne h
  | VerifyCSRFToken token now =>
    show (VerifyCSRFToken am token now).1.csrfTokens.lookup t = _
    rw [verifyCSRFToken_fst]
    show (am.csrfTokens.erase token).lookup t = if t = token then none else am.csrfTokens.lookup t
    split_ifs with h
    · rw [h]; exact AList.lookup_erase _ _
    · exact AList.lookup_erase_ne h
  | cleanup now => exact lookup_sweepExpired now am.csrfTokens t

/-- A token that is in the CSRF store stays there, with its expiry, through
operations that neither verify nor re-issue it and read the clock no later than
its expiry. -/
theorem run_keeps_csrfToken (bc : Bcrypt) (u : Unicode) (t : String) (expiry : Time)
    (ops : List Op) :
    ∀ am : AuthManager, am.csrfTokens.lookup t = some expiry →
      (∀ op ∈ ops, op.verifiesCSRF t = false ∧ op.issuesCSRF t = false) →
      (∀ op ∈ ops, ∀ r ∈ op.readings, r ≤ expiry) →
      (run bc u am ops).csrfTokens.lookup t = some expiry := by
  induction ops with
  | nil => intro am h _ _; exact h
  | cons op ops ih =>
    intro am h hops hclock
    show (run bc u (step bc u am op) ops).csrfTokens.lookup t = some expiry
    apply ih
    · rw [step_csrfTokens_lookup]
      have ho := hops op (List.mem_cons_self _ _)
      have hc := hclock op (List.mem_cons_self _ _)
      cases op with
      | GenerateCSRFToken tok now =>
        have hne : ¬ t = tok := by
          intro e
          have := ho.2
          simp [Op.issuesCSRF, e] at this
        simp only [if_neg hne, h]
      | VerifyCSRFToken token now =>
        have hne : ¬ t = token := by
          intro e
          have := ho.1
          simp [Op.verifiesCSRF, e] at this
        simp only [if_neg hne, h]
      | cleanup now =>
        have hle : now ≤ expiry := hc now (by simp [Op.readings])
        simp only [h, Option.filter, Time.After]
        have : ¬ now > expiry := not_lt.2 hle
        simp [this]
      | Login _ _ _ _ _ => exact h
      | VerifySession _ _ => exact h
      | Logout _ => exact h
      | ChangePassword _ _ _ => exact h
    · exact fun o ho => hops o (List.mem_cons_of_mem _ ho)
    · exact fun o ho => hclock o (List.mem_cons_of_mem _ ho)

/-- A token that is not in the CSRF store stays out of it through operations
that do not issue it. -/
theorem run_keeps_csrfToken_absent (bc : Bcrypt) (u : Unicode) (t : String) (ops : List Op) :
    ∀ am : AuthManager, am.csrfTokens.lookup t = none →
      (∀ op ∈ ops, op.issuesCSRF t = false) →
      (run bc u am ops).csrfTokens.lookup t = none := by
  induction ops with
  | nil => intro am h _; exact h
  | cons op ops ih =>
    intro am h hops
    show (run bc u (step bc u am op) ops).csrfTokens.lookup t = none
    apply ih
    · rw [step_csrfTokens_lookup]
      have ho := hops op (List.mem_cons_self _ _)
      cases op with
      | GenerateCSRFToken tok now =>
        have hne : ¬ t = tok := by
          intro e
          simp [Op.issuesCSRF, e] at ho
        simp only [if_neg hne, h]
      | VerifyCSRFToken token now =>
        simp only [h, ite_self]
      | cleanup now => simp only [h]; rfl
      | Login _ _ _ _ _ => exact h
      | VerifySession _ _ => exact h
      | Logout _ => exact h
      | ChangePassword _ _ _ => exact h
    · exact fun o ho => hops o (List.mem_cons_of_mem _ ho)

/-- Pruning at a time `c` that is less than a window after `first` keeps every
attempt made at or after `first`. -/
theorem countP_validAttempts (first c : Time) (l : List Time)
    (hwin : c - first < loginWindow) :
    (validAttempts c l).countP (fun a => decide (first ≤ a))
      = l.countP (fun a => decide (first ≤ a)) := by
  rw [validAttempts_eq_filter, List.countP_filter]
  apply List.countP_congr
  intro a _
  simp only [Bool.and_eq_true, decide_eq_true_eq]
  constructor
  · exact fun h => h.1
  · intro h
    refine ⟨h, ?_⟩
    have h1 : c - a ≤ c - first := sub_le_sub_left h c
    exact lt_of_le_of_lt h1 hwin

/-- `Login` from one address never touches the record of another. -/
theorem login_attempts_other (bc : Bcrypt) (am : AuthManager) (password ip : String)
    (now₁ now₂ : Time) (tok : String) (k : String) (hk : k ≠ ip) :
    (Login bc am password ip now₁ now₂ tok).1.loginAttempts.lookup k
      = am.loginAttempts.lookup k := by
  have h0 := isRateLimited_fst_attempts am ip now₁ k
  rw [if_neg hk] at h0
  cases hlim : (isRateLimited am ip now₁).2
  · cases hpw : bc.CompareHashAndPassword am.passwordHash password
    · rw [login_wrong_password bc am password ip now₁ now₂ tok hlim hpw]
      show ((isRateLimited am ip now₁).1.loginAttempts.insert ip _).lookup k = _
      rw [AList.lookup_insert_ne hk, h0]
    · rw [login_applied bc am password ip now₁ now₂ tok hlim hpw]
      exact AList.lookup_erase_ne hk
  · rw [login_blocked bc am password ip now₁ now₂ tok hlim]
    exact h0

/-- A `Login` that is let through and fails on the password adds its second
clock reading to the pruned record of the address. -/
theorem login_wrong_password_attempts (bc : Bcrypt) (am : AuthManager) (password ip : String)
    (now₁ now₂ : Time) (tok : String)
    (hlim : (isRateLimited am ip now₁).2 = false)
    (hpw : bc.CompareHashAndPassword am.passwordHash password = false) :
    (Login bc am password ip now₁ now₂ tok).1.loginAttempts.lookup ip
      = some (validAttempts now₁ ((am.loginAttempts.lookup ip).getD []) ++ [now₂]) := by
  rw [login_wrong_password bc am password ip now₁ now₂ tok hlim hpw]
  have h0 := isRateLimited_fst_attempts am ip now₁ ip
  rw [if_pos rfl] at h0
  unfold recordFailedAttempt
  simp only [h0]
  rw [AList.lookup_insert]
  cases am.loginAttempts.lookup ip with
  | none => simp [validAttempts]
  | some l => simp

/-- One operation of a trace in which the logins from `A` fail on the password
does not lower the number of attempts recorded for `A` since `first`, and a
`Login` from `A` raises it by one. -/
theorem step_attemptsSince (bc : Bcrypt) (u : Unicode) (A : String) (first last : Time)
    (am : AuthManager) (op : Op)
    (hwin : last - first < loginWindow)
    (hfail : loginsFailOnPassword bc u A am [op] = true)
    (hclock : ∀ r ∈ op.readings, r ≤ last)
    (hrec : ∀ r ∈ op.recordTime A, first ≤ r) :
    attemptsSince first A am + (if op.isLoginFrom A = true then 1 else 0)
      ≤ attemptsSince first A (step bc u am op) := by
  unfold attemptsSince
  cases op with
  | Login password ip now₁ now₂ tok =>
    by_cases hip : ip = A
    · subst hip
      simp only [loginsFailOnPassword, if_true, Bool.and_true, Bool.and_eq_true,
        Bool.not_eq_true'] at hfail
      have hpw := hfail.2
      rw [(isRateLimited_fst_fields am ip now₁).1] at hpw
      have h1 : now₁ ≤ last := hclock now₁ (by simp [Op.readings])
      have h2 : first ≤ now₂ := hrec now₂ (by simp [Op.recordTime])
      have hw : now₁ - first < loginWindow := lt_of_le_of_lt (sub_le_sub_right h1 first) hwin
      show _ ≤ List.countP _ (((Login bc am password ip now₁ now₂ tok).1.loginAttempts.lookup
        ip).getD [])
      rw [login_wrong_password_attempts bc am password ip now₁ now₂ tok hfail.1 hpw]
      simp only [Op.isLoginFrom, decide_True, if_true, Option.getD_some, List.countP_append,
        countP_validAttempts first now₁ _ hw]
      simp [h2]
    · show _ ≤ List.countP _ (((Login bc am password ip now₁ now₂ tok).1.loginAttempts.lookup
        A).getD [])
      rw [login_attempts_other bc am password ip now₁ now₂ tok A (fun h => hip h.symm)]
      simp [Op.isLoginFrom, hip]
  | VerifySession token now => simp [Op.isLoginFrom, step]
  | Logout token => simp [Op.isLoginFrom, step, Logout]
  | ChangePassword oldPassword newPassword salt =>
    show _ ≤ List.countP _ (((ChangePassword bc u am oldPassword newPassword
      salt).1.loginAttempts.lookup A).getD [])
    rw [(changePassword_other_stores bc u am oldPassword newPassword salt).2]
    simp [Op.isLoginFrom]
  | GenerateCSRFToken tok now => simp [Op.isLoginFrom, step, GenerateCSRFToken]
  | VerifyCSRFToken token now =>
    show _ ≤ List.countP _ (((VerifyCSRFToken am token now).1.loginAttempts.lookup A).getD [])
    rw [verifyCSRFToken_fst]
    simp [Op.isLoginFrom]
  | cleanup now =>
    have h1 : now ≤ last := hclock now (by simp [Op.readings])
    have hw : now - first < loginWindow := lt_of_le_of_lt (sub_le_sub_right h1 first) hwin
    show _ ≤ List.countP _ (((sweepAttempts now am.loginAttempts).lookup A).getD [])
    rw [lookup_sweepAttempts]
    simp only [Op.isLoginFrom, Bool.false_eq_true, if_false, add_zero]
    cases hl : am.loginAttempts.lookup A with
    | none => simp
    | some l =>
      simp only [Option.some_bind, prunedEntry, Option.getD_some]
      split_ifs with h0
      · rw [← countP_validAttempts first now l hw, List.length_eq_zero.1 h0]
        simp
      · simp only [Option.getD_some]
        rw [countP_validAttempts first now l hw]

/-- The condition on a trace splits into the condition on its first operation
and the condition on the rest, run from the next state. -/
theorem loginsFailOnPassword_cons (bc : Bcrypt) (u : Unicode) (A : String) (am : AuthManager)
    (op : Op) (ops : List Op) :
    loginsFailOnPassword bc u A am (op :: ops)
      = (loginsFailOnPassword bc u A am [op] &&
          loginsFailOnPassword bc u A (step bc u am op) ops) := by
  simp only [loginsFailOnPassword, Bool.and_true]

/-- Along a trace in which every `Login` from `A` fails on the password, each such
call adds one to the attempts recorded for `A` since `first`, as long as the
clock stays less than a window after `first`. -/
theorem run_attemptsSince (bc : Bcrypt) (u : Unicode) (A : String) (first last : Time)
    (hwin : last - first < loginWindow) (ops : List Op) :
    ∀ am : AuthManager, loginsFailOnPassword bc u A am ops = true →
      (∀ op ∈ ops, ∀ r ∈ op.readings, r ≤ last) →
      (∀ op ∈ ops, ∀ r ∈ op.recordTime A, first ≤ r) →
      attemptsSince first A am + ops.countP (Op.isLoginFrom A)
        ≤ attemptsSince first A (run bc u am ops) := by
  induction ops with
  | nil => intro am _ _ _; simp [run]
  | cons op ops ih =>
    intro am hfail hclock hrec
    rw [loginsFailOnPassword_cons, Bool.and_eq_true] at hfail
    have h1 := step_attemptsSince bc u A first last am op hwin hfail.1
      (hclock op (List.mem_cons_self _ _)) (hrec op (List.mem_cons_self _ _))
    have h2 := ih (step bc u am op) hfail.2
      (fun o ho => hclock o (List.mem_cons_of_mem _ ho))
      (fun o ho => hrec o (List.mem_cons_of_mem _ ho))
    show _ ≤ attemptsSince first A (run bc u (step bc u am op) ops)
    rw [List.countP_cons]
    omega

/-- Pruning at `now` and then at a later time `t` is pruning at `t`. -/
theorem validAttempts_validAttempts (now t : Time) (h : now ≤ t) (l : List Time) :
    validAttempts t (validAttempts now l) = validAttempts t l := by
  rw [validAttempts_eq_filter, validAttempts_eq_filter, validAttempts_eq_filter,
    List.filter_filter]
  apply List.filter_congr
  intro a _
  by_cases ha : t - a < loginWindow
  · have h1 : now - a ≤ t - a := sub_le_sub_right h a
    have h2 : now - a < loginWindow := lt_of_le_of_lt h1 ha
    simp [ha, h2]
  · simp [ha]

/-- The result of `Login`. -/
theorem login_snd (bc : Bcrypt) (am : AuthManager) (password ip : String)
    (now₁ now₂ : Time) (tok : String) :
    (Login bc am password ip now₁ now₂ tok).2 =
      if (isRateLimited am ip now₁).2 = true then ("", false)
      else if bc.CompareHashAndPassword am.passwordHash password = true then (tok, true)
      else ("", false) := by
  cases hlim : (isRateLimited am ip now₁).2
  · cases hpw : bc.CompareHashAndPassword am.passwordHash password
    · rw [login_wrong_password bc am password ip now₁ now₂ tok hlim hpw]; rfl
    · rw [login_applied bc am password ip now₁ now₂ tok hlim hpw]; rfl
  · rw [login_blocked bc am password ip now₁ now₂ tok hlim]; rfl

/-- The limiter gives the same answer after a sweep made no later than the check. -/
theorem isRateLimited_cleanup (am : AuthManager) (ip : String) (now t : Time) (h : now ≤ t) :
    (isRateLimited (cleanup am now) ip t).2 = (isRateLimited am ip t).2 := by
  rw [isRateLimited_snd, isRateLimited_snd]
  show (match (sweepAttempts now am.loginAttempts).lookup ip with
    | none => false
    | some attempts => decide (maxLoginAttempts ≤ (validAttempts t attempts).length)) = _
  rw [lookup_sweepAttempts]
  cases hl : am.loginAttempts.lookup ip with
  | none => rfl
  | some l =>
    simp only [Option.some_bind, prunedEntry]
    split_ifs with h0
    · have h1 : validAttempts t l = [] := by
        rw [← validAttempts_validAttempts now t h l, List.length_eq_zero.1 h0]
        rfl
      simp [h1, maxLoginAttempts]
    · simp only [validAttempts_validAttempts now t h l]

/-- The token the CSRF gate verifies: the form field, or the header when the
form field is empty. -/
theorem csrfMiddleware_gated {W : Type} (httpError : W → String → Nat → W)
    (next : HandlerFunc W) (now : Time) (w : W) (am : AuthManager) (r : Request)
    (hm : ¬ (r.Method = "GET" ∨ r.Method = "HEAD")) :
    CSRFMiddleware httpError next now w am r =
      if (VerifyCSRFToken am
          (if r.FormValue "csrf_token" = "" then r.HeaderGet "X-CSRF-Token"
            else r.FormValue "csrf_token") now).2 = true
      then next w (VerifyCSRFToken am
          (if r.FormValue "csrf_token" = "" then r.HeaderGet "X-CSRF-Token"
            else r.FormValue "csrf_token") now).1 r
      else (httpError w "Invalid CSRF token" 403, (VerifyCSRFToken am
          (if r.FormValue "csrf_token" = "" then r.HeaderGet "X-CSRF-Token"
            else r.FormValue "csrf_token") now).1) := by
  unfold CSRFMiddleware
  rw [if_neg hm]
  dsimp only
  cases (VerifyCSRFToken am
      (if r.FormValue "csrf_token" = "" then r.HeaderGet "X-CSRF-Token"
        else r.FormValue "csrf_token") now).2 <;> simp [StatusForbidden]

/-! ## C1: the sixth login is blocked -/

/-- C1. Take any state and any trace of operations, read on a clock that does
not pass `now₁`, in which at least five `Login` calls come from address `A`,
every `Login` from `A` is let through by the limiter and fails on the password,
and each of them records its failure at or after the instant `first`. A further
`Login` from `A` whose clock reading `now₁` is less than 15 minutes after
`first` returns `("", false)` whatever the password, correct or not, and leaves
the session store, the credential hash and the CSRF store as they were. -/
theorem sixth_login_is_blocked (bc : Bcrypt) (u : Unicode) (am : AuthManager) (A : String)
    (ops : List Op) (first : Time) (password : String) (now₁ now₂ : Time) (tok : String)
    (hfail : loginsFailOnPassword bc u A am ops = true)
    (hfive : 5 ≤ ops.countP (Op.isLoginFrom A))
    (hclock : ∀ op ∈ ops, ∀ r ∈ op.readings, r ≤ now₁)
    (hrec : ∀ op ∈ ops, ∀ r ∈ op.recordTime A, first ≤ r)
    (hwin : now₁ - first < loginWindow) :
    loginWindow = 15 * 60 * 1000000000 ∧
    (Login bc (run bc u am ops) password A now₁ now₂ tok).2 = ("", false) ∧
    (Login bc (run bc u am ops) password A now₁ now₂ tok).1.sessions
      = (run bc u am ops).sessions ∧
    (Login bc (run bc u am ops) password A now₁ now₂ tok).1.passwordHash
      = (run bc u am ops).passwordHash ∧
    (Login bc (run bc u am ops) password A now₁ now₂ tok).1.csrfTokens
      = (run bc u am ops).csrfTokens := by
  have hcount := run_attemptsSince bc u A first now₁ hwin ops am hfail hclock hrec
  have h5 : 5 ≤ attemptsSince first A (run bc u am ops) := by omega
  have hlim : (isRateLimited (run bc u am ops) A now₁).2 = true := by
    rw [isRateLimited_snd]
    unfold attemptsSince at h5
    cases hl : (run bc u am ops).loginAttempts.lookup A with
    | none => rw [hl] at h5; simp at h5
    | some l =>
      rw [hl] at h5
      simp only [Option.getD_some] at h5
      rw [← countP_validAttempts first now₁ l hwin] at h5
      have h6 := List.countP_le_length (fun a => decide (first ≤ a)) (l := validAttempts now₁ l)
      simp only [maxLoginAttempts, decide_eq_true_eq]
      omega
  obtain ⟨f1, f2, f3, _⟩ := isRateLimited_fst_fields (run bc u am ops) A now₁
  rw [login_blocked bc (run bc u am ops) password A now₁ now₂ tok hlim]
  exact ⟨by norm_num [loginWindow, Minute, Second], rfl, f2, f1, f3⟩

/-- Five wrong passwords from `10.0.0.9` between times 100 and 151, with a sweep
in between; the right password at time 160 is refused. -/
theorem sixth_login_is_blocked_witness :
    tagBcrypt.CompareHashAndPassword sample.passwordHash "admin123" = true ∧
    (Login tagBcrypt
      (run tagBcrypt latin1 sample
        [.Login "a" "10.0.0.9" 100 101 "x", .Login "b" "10.0.0.9" 110 111 "x",
          .cleanup 120, .Login "c" "10.0.0.9" 130 131 "x", .Login "d" "10.0.0.9" 140 141 "x",
          .Login "e" "10.0.0.9" 150 151 "x"])
      "admin123" "10.0.0.9" 160 161 "tok").2 = ("", false) :=
  ⟨by decide,
    (sixth_login_is_blocked tagBcrypt latin1 sample "10.0.0.9"
      [.Login "a" "10.0.0.9" 100 101 "x", .Login "b" "10.0.0.9" 110 111 "x",
        .cleanup 120, .Login "c" "10.0.0.9" 130 131 "x", .Login "d" "10.0.0.9" 140 141 "x",
        .Login "e" "10.0.0.9" 150 151 "x"]
      101 "admin123" 160 161 "tok"
      (by decide) (by decide) (by decide) (by decide) (by decide)).2.1⟩

/-! ## C2: a CSRF token verifies once -/

/-- C2. Let `t` be the token returned by `GenerateCSRFToken` at time `issued`;
it is stored with expiry `issued + 2h`. After any operations that neither
verify nor re-issue `t`, on a clock that has not passed `now₁`, the first
`VerifyCSRFToken(t)`, made at a time `now₁` not after the expiry, returns true.
After that call, and after any further operations that do not re-issue `t`
(further verifications of `t` included), `VerifyCSRFToken(t)` returns false at
every time `now₂`. -/
theorem csrfToken_verifies_exactly_once (bc : Bcrypt) (u : Unicode) (am : AuthManager)
    (t : String) (issued now₁ : Time) (ops₁ ops₂ : List Op)
    (hfirst : ∀ op ∈ ops₁, op.verifiesCSRF t = false ∧ op.issuesCSRF t = false)
    (hclock : ∀ op ∈ ops₁, ∀ r ∈ op.readings, r ≤ now₁)
    (hlive : now₁ ≤ issued + csrfTokenDuration)
    (hnoissue : ∀ op ∈ ops₂, op.issuesCSRF t = false) :
    (GenerateCSRFToken am t issued).2 = t ∧
    (GenerateCSRFToken am t issued).1.csrfTokens.lookup t = some (issued + csrfTokenDuration) ∧
    csrfTokenDuration = 2 * 60 * 60 * 1000000000 ∧
    (VerifyCSRFToken (run bc u (GenerateCSRFToken am t issued).1 ops₁) t now₁).2 = true ∧
    ∀ now₂ : Time,
      (VerifyCSRFToken
        (run bc u (VerifyCSRFToken (run bc u (GenerateCSRFToken am t issued).1 ops₁) t now₁).1
          ops₂) t now₂).2 = false := by
  have h0 : (GenerateCSRFToken am t issued).1.csrfTokens.lookup t
      = some (issued + csrfTokenDuration) := AList.lookup_insert _
  refine ⟨rfl, h0, by norm_num [csrfTokenDuration, Hour, Minute, Second], ?_, ?_⟩
  · have h1 := run_keeps_csrfToken bc u t (issued + csrfTokenDuration) ops₁ _ h0 hfirst
      (fun op ho r hr => le_trans (hclock op ho r hr) hlive)
    rw [verifyCSRFToken_snd, h1]
    have : ¬ now₁ > issued + csrfTokenDuration := not_lt.2 hlive
    simp [Time.After, this]
  · intro now₂
    have h2 : (VerifyCSRFToken (run bc u (GenerateCSRFToken am t issued).1 ops₁) t
        now₁).1.csrfTokens.lookup t = none := by
      rw [verifyCSRFToken_fst]
      exact AList.lookup_erase _ _
    have h3 := run_keeps_csrfToken_absent bc u t ops₂ _ h2 hnoissue
    rw [verifyCSRFToken_snd, h3]

/-- Token `c2`, issued at time 10, verifies at time 50 after unrelated
operations, and not at time 80 after a failed second attempt at time 60. -/
theorem csrfToken_verifies_exactly_once_witness :
    (VerifyCSRFToken
      (run tagBcrypt latin1 (GenerateCSRFToken sample "c2" 10).1
        [.cleanup 20, .VerifyCSRFToken "c1" 30, .Login "guess" "10.0.0.1" 40 41 "x"])
      "c2" 50).2 = true ∧
    (VerifyCSRFToken
      (run tagBcrypt latin1
        (VerifyCSRFToken
          (run tagBcrypt latin1 (GenerateCSRFToken sample "c2" 10).1
            [.cleanup 20, .VerifyCSRFToken "c1" 30, .Login "guess" "10.0.0.1" 40 41 "x"])
          "c2" 50).1
        [.VerifyCSRFToken "c2" 60, .GenerateCSRFToken "c3" 70])
      "c2" 80).2 = false :=
  have h := csrfToken_verifies_exactly_once tagBcrypt latin1 sample "c2" 10 50
    [.cleanup 20, .VerifyCSRFToken "c1" 30, .Login "guess" "10.0.0.1" 40 41 "x"]
    [.VerifyCSRFToken "c2" 60, .GenerateCSRFToken "c3" 70]
    (by decide) (by decide) (by decide) (by decide)
  ⟨h.2.2.2.1, h.2.2.2.2 80⟩

/-! ## C3: session verification -/

/-- C3. `VerifySession(token)` at time `now` returns true exactly when the token
is a key of the session store and `now` is strictly before the recorded expiry;
a token that is still in the store but whose expiry is not after `now` is
reported invalid; and the call leaves the state as it was (it only reads). -/
theorem verifySession_iff_present_and_unexpired (bc : Bcrypt) (u : Unicode)
    (am : AuthManager) (token : String) (now : Time) :
    (VerifySession am token now = true ↔
        ∃ expiry, am.sessions.lookup token = some expiry ∧ now < expiry) ∧
    (∀ expiry, am.sessions.lookup token = some expiry → expiry ≤ now →
        VerifySession am token now = false) ∧
    step bc u am (.VerifySession token now) = am := by
  refine ⟨?_, ?_, rfl⟩
  · unfold VerifySession
    cases h : am.sessions.lookup token with
    | none => simp
    | some e => simp [Time.Before]
  · intro expiry h hle
    unfold VerifySession
    rw [h]
    simp [Time.Before, hle]

/-- Session `s1` of `sample` expires at 100: it is in the store and invalid at
time 100. -/
theorem verifySession_iff_witness :
    sample.sessions.lookup "s1" = some 100 ∧ (100 : Time) ≤ 100 ∧
      VerifySession sample "s1" 100 = false :=
  ⟨by decide, by decide,
    (verifySession_iff_present_and_unexpired tagBcrypt latin1 sample "s1" 100).2.1 100
      (by decide) (by decide)⟩

/-! ## C4: successful login -/

/-- C4. When address `A` is not rate limited (clock read as `now₁`) and the
password verifies, `Login` returns the newly generated token and true; the new
state is the old one with `sessions[tok]` set to the time of issue `now₂` plus
24 hours and with the entry of `A` deleted from the attempt records; the hash,
the CSRF store, the other sessions and the other addresses are as before. A
`Login` from `A` that fails right afterwards leaves exactly one attempt for
`A`, the one it records. -/
theorem login_success_issues_session (bc : Bcrypt) (am : AuthManager) (password A : String)
    (now₁ now₂ : Time) (tok : String)
    (hlim : (isRateLimited am A now₁).2 = false)
    (hpw : bc.CompareHashAndPassword am.passwordHash password = true) :
    Login bc am password A now₁ now₂ tok =
      ({ am with
          sessions := am.sessions.insert tok (now₂ + sessionDuration)
          loginAttempts := am.loginAttempts.erase A }, (tok, true)) ∧
    sessionDuration = 24 * 60 * 60 * 1000000000 ∧
    (Login bc am password A now₁ now₂ tok).1.sessions.lookup tok
      = some (now₂ + sessionDuration) ∧
    (∀ other, other ≠ tok →
      (Login bc am password A now₁ now₂ tok).1.sessions.lookup other
        = am.sessions.lookup other) ∧
    (Login bc am password A now₁ now₂ tok).1.loginAttempts.lookup A = none ∧
    (∀ ip, ip ≠ A →
      (Login bc am password A now₁ now₂ tok).1.loginAttempts.lookup ip
        = am.loginAttempts.lookup ip) ∧
    (Login bc am password A now₁ now₂ tok).1.passwordHash = am.passwordHash ∧
    (Login bc am password A now₁ now₂ tok).1.csrfTokens = am.csrfTokens ∧
    (∀ (password₂ : String) (t₁ t₂ : Time) (tok₂ : String),
      (Login bc (Login bc am password A now₁ now₂ tok).1 password₂ A t₁ t₂ tok₂).2.2 = false →
      (Login bc (Login bc am password A now₁ now₂ tok).1 password₂ A t₁ t₂ tok₂).1.loginAttempts.lookup
        A = some [t₂]) := by
  have h := login_applied bc am password A now₁ now₂ tok hlim hpw
  rw [h]
  refine ⟨rfl, by norm_num [sessionDuration, Hour, Minute, Second], AList.lookup_insert _,
    fun other ho => AList.lookup_insert_ne ho, AList.lookup_erase _ _,
    fun ip hip => AList.lookup_erase_ne hip, rfl, rfl, ?_⟩
  intro password₂ t₁ t₂ tok₂
  generalize hs : ({ am with
          sessions := am.sessions.insert tok (now₂ + sessionDuration)
          loginAttempts := am.loginAttempts.erase A } : AuthManager) = s
  have hA : s.loginAttempts.lookup A = none := by
    rw [← hs]; exact AList.lookup_erase _ _
  have hr := isRateLimited_absent s A t₁ hA
  cases hc : bc.CompareHashAndPassword s.passwordHash password₂
  · rw [login_wrong_password bc s password₂ A t₁ t₂ tok₂ (by rw [hr]) hc, hr]
    intro _
    show (recordFailedAttempt s A t₂).loginAttempts.lookup A = some [t₂]
    unfold recordFailedAttempt
    simp only [hA, Option.getD_none, List.nil_append]
    exact AList.lookup_insert _
  · rw [login_applied bc s password₂ A t₁ t₂ tok₂ (by rw [hr]) hc]
    intro hf
    cases hf

/-- On `sample`: a successful login from `10.0.0.1` clears its two recorded
failures and keeps session `s1`; a wrong password right after leaves one
attempt. -/
theorem login_success_issues_session_witness :
    (Login tagBcrypt sample "admin123" "10.0.0.1" 30 31 "tok").2 = ("tok", true) ∧
    (Login tagBcrypt sample "admin123" "10.0.0.1" 30 31 "tok").1.loginAttempts.lookup "10.0.0.1"
      = none ∧
    (Login tagBcrypt sample "admin123" "10.0.0.1" 30 31 "tok").1.sessions.lookup "s1"
      = sample.sessions.lookup "s1" ∧
    (Login tagBcrypt sample "admin123" "10.0.0.1" 30 31 "tok").1.loginAttempts.lookup "10.0.0.2"
      = sample.loginAttempts.lookup "10.0.0.2" ∧
    (Login tagBcrypt (Login tagBcrypt sample "admin123" "10.0.0.1" 30 31 "tok").1 "guess"
      "10.0.0.1" 40 41 "tok2").1.loginAttempts.lookup "10.0.0.1" = some [41] :=
  have h := login_success_issues_session tagBcrypt sample "admin123" "10.0.0.1" 30 31 "tok"
    (by decide) (by decide)
  ⟨congrArg Prod.snd h.1, h.2.2.2.2.1, h.2.2.2.1 "s1" (by decide),
    h.2.2.2.2.2.1 "10.0.0.2" (by decide), h.2.2.2.2.2.2.2.2 "guess" 40 41 "tok2" (by decide)⟩

/-! ## C5: successful password change -/

/-- C5 (as amended). When the old password verifies, the new password satisfies
the policy and bcrypt produces a hash for it, `ChangePassword` returns
`(true, "")`, stores that hash, which verifies the new password, and leaves the
session store empty, so `VerifySession` is false for every token at every
time; the CSRF store and the attempt records are untouched. The password
`Abcd1234` satisfies the policy. -/
theorem changePassword_success_clears_sessions (bc : Bcrypt) (u : Unicode) (am : AuthManager)
    (oldPassword newPassword : String) (salt : Nat) (hash : String)
    (hsound : bc.Sound)
    (hold : bc.CompareHashAndPassword am.passwordHash oldPassword = true)
    (hpolicy : validatePassword u newPassword = none)
    (hgen : bc.GenerateFromPassword newPassword salt = some hash) :
    (ChangePassword bc u am oldPassword newPassword salt).2 = (true, "") ∧
    (ChangePassword bc u am oldPassword newPassword salt).1.passwordHash = hash ∧
    bc.CompareHashAndPassword
      (ChangePassword bc u am oldPassword newPassword salt).1.passwordHash newPassword = true ∧
    (ChangePassword bc u am oldPassword newPassword salt).1.sessions = ∅ ∧
    (∀ token now,
      VerifySession (ChangePassword bc u am oldPassword newPassword salt).1 token now = false) ∧
    (ChangePassword bc u am oldPassword newPassword salt).1.csrfTokens = am.csrfTokens ∧
    (ChangePassword bc u am oldPassword newPassword salt).1.loginAttempts
      = am.loginAttempts ∧
    (u.AgreesOnASCII → validatePassword u "Abcd1234" = none) := by
  rw [changePassword_applied bc u am oldPassword newPassword salt hash hold hpolicy hgen]
  refine ⟨rfl, rfl, hsound _ _ _ hgen, rfl, ?_, rfl, rfl, validatePassword_Abcd1234 u⟩
  intro token now
  rfl

/-- The session `s1` of `sample` is valid at time 50 and no longer after the
password is changed to `Abcd1234`. -/
theorem changePassword_success_clears_sessions_witness :
    VerifySession sample "s1" 50 = true ∧
    (ChangePassword tagBcrypt latin1 sample "admin123" "Abcd1234" 7).2 = (true, "") ∧
    VerifySession (ChangePassword tagBcrypt latin1 sample "admin123" "Abcd1234" 7).1 "s1" 50
      = false ∧
    validatePassword latin1 "Abcd1234" = none :=
  have h := changePassword_success_clears_sessions tagBcrypt latin1 sample "admin123"
    "Abcd1234" 7 "bcrypt$Abcd1234" tagBcrypt_sound (by decide) (by decide) (by decide)
  ⟨by decide, h.1, h.2.2.2.2.1 "s1" 50, h.2.2.2.2.2.2.2 latin1_agreesOnASCII⟩

/-- C5, the claim as written fails when bcrypt cannot hash the new password: a
73-byte password satisfies the policy, the old password verifies, and
`ChangePassword` returns false with the hashing-failure reason, keeping the
old hash and every session. -/
theorem changePassword_fails_when_hashing_fails :
    tagBcrypt.CompareHashAndPassword sample.passwordHash "admin123" = true ∧
    validatePassword latin1 longPassword = none ∧
    longPassword.utf8ByteSize = 73 ∧
    ChangePassword tagBcrypt latin1 sample "admin123" longPassword 7
      = (sample, (false, hashFailureMessage)) ∧
    VerifySession (ChangePassword tagBcrypt latin1 sample "admin123" longPassword 7).1 "s1" 50
      = true := by
  refine ⟨by decide, by decide, by decide, ?_, by decide⟩
  exact changePassword_hashFailure tagBcrypt latin1 sample "admin123" longPassword 7
    (by decide) (by decide) (by decide)

/-! ## C6: failed password change -/

/-- C6. Whenever `ChangePassword` returns false the state is exactly the state
before the call and the reason is not empty. With the right old password and
the new password `abcdefgh` it returns false with the composition reason, which
is neither the length reason nor the mismatch reason, and the stored hash still
verifies the old password. -/
theorem changePassword_failure_keeps_state (bc : Bcrypt) (u : Unicode) (am : AuthManager)
    (oldPassword newPassword : String) (salt : Nat) :
    ((ChangePassword bc u am oldPassword newPassword salt).2.1 = false →
        (ChangePassword bc u am oldPassword newPassword salt).1 = am ∧
        (ChangePassword bc u am oldPassword newPassword salt).2.2 ≠ "") ∧
    (u.AgreesOnASCII → bc.CompareHashAndPassword am.passwordHash oldPassword = true →
        ChangePassword bc u am oldPassword "abcdefgh" salt = (am, (false, compositionMessage)) ∧
        compositionMessage ≠ lengthMessage ∧ compositionMessage ≠ mismatchMessage ∧
        bc.CompareHashAndPassword
          (ChangePassword bc u am oldPassword "abcdefgh" salt).1.passwordHash oldPassword
            = true) := by
  constructor
  · cases hold : bc.CompareHashAndPassword am.passwordHash oldPassword
    · rw [changePassword_mismatch bc u am oldPassword newPassword salt hold]
      intro _
      refine ⟨rfl, ?_⟩
      show mismatchMessage ≠ ""
      decide
    · cases hv : validatePassword u newPassword with
      | some err =>
        rw [changePassword_rejected bc u am oldPassword newPassword salt err hold hv]
        intro _
        refine ⟨rfl, ?_⟩
        show err.Message ≠ ""
        rcases validatePassword_message u newPassword err hv with h | h <;> rw [h] <;> decide
      | none =>
        cases hg : bc.GenerateFromPassword newPassword salt with
        | none =>
          rw [changePassword_hashFailure bc u am oldPassword newPassword salt hold hv hg]
          intro _
          refine ⟨rfl, ?_⟩
          show hashFailureMessage ≠ ""
          decide
        | some hash =>
          rw [changePassword_applied bc u am oldPassword newPassword salt hash hold hv hg]
          intro h
          cases h
  · intro hu hold
    have h : ChangePassword bc u am oldPassword "abcdefgh" salt
        = (am, (false, compositionMessage)) :=
      changePassword_rejected bc u am oldPassword "abcdefgh" salt _ hold
        (validatePassword_abcdefgh u hu)
    refine ⟨h, by decide, by decide, ?_⟩
    rw [h]
    exact hold

/-- On `sample`: a wrong old password changes nothing, and so does the new
password `abcdefgh` with the right old password. -/
theorem changePassword_failure_keeps_state_witness :
    (ChangePassword tagBcrypt latin1 sample "wrong" "Abcd1234" 7).2.1 = false ∧
    (ChangePassword tagBcrypt latin1 sample "wrong" "Abcd1234" 7).1 = sample ∧
    ChangePassword tagBcrypt latin1 sample "admin123" "abcdefgh" 7
      = (sample, (false, compositionMessage)) :=
  ⟨by decide,
    ((changePassword_failure_keeps_state tagBcrypt latin1 sample "wrong" "Abcd1234" 7).1
      (by decide)).1,
    ((changePassword_failure_keeps_state tagBcrypt latin1 sample "admin123" "abcdefgh" 7).2
      latin1_agreesOnASCII (by decide)).1⟩

/-! ## C7: password policy -/

/-- What `validatePassword` computes, for tables with disjoint classes: it
returns nil exactly when `len(p)`, the UTF-8 byte length, is at least 8 and the
scan meets a code point of each of the classes `IsUpper`, `IsLower` and
`IsNumber`; below 8 bytes it returns the length message, otherwise the
composition message, and the two differ. The punctuation and symbol classes
never influence the outcome. -/
theorem validatePassword_policy (u : Unicode) (hu : u.Disjoint) (p : String) :
    (validatePassword u p = none ↔
        8 ≤ p.utf8ByteSize ∧ (∃ c ∈ p.data, u.IsUpper c = true) ∧
          (∃ c ∈ p.data, u.IsLower c = true) ∧ (∃ c ∈ p.data, u.IsNumber c = true)) ∧
    (p.utf8ByteSize < 8 → validatePassword u p = some { Message := lengthMessage }) ∧
    (8 ≤ p.utf8ByteSize → validatePassword u p ≠ none →
        validatePassword u p = some { Message := compositionMessage }) ∧
    lengthMessage ≠ compositionMessage ∧
    (∀ v : Unicode, v.IsUpper = u.IsUpper → v.IsLower = u.IsLower → v.IsNumber = u.IsNumber →
        validatePassword v p = validatePassword u p) := by
  have hL : p.data.any (fun c => !u.IsUpper c && u.IsLower c) = p.data.any u.IsLower := by
    congr 1
    funext c
    cases hU : u.IsUpper c
    · simp
    · simp [((hu c).1 hU).1]
  have hN : p.data.any (fun c => !u.IsUpper c && !u.IsLower c && u.IsNumber c)
      = p.data.any u.IsNumber := by
    congr 1
    funext c
    cases hU : u.IsUpper c
    · cases hLo : u.IsLower c
      · simp
      · simp [(hu c).2 hLo]
    · simp [((hu c).1 hU).2]
  refine ⟨?_, ?_, ?_, by decide, ?_⟩
  · rw [validatePassword_eq, hL, hN]
    by_cases hlen : p.utf8ByteSize < 8
    · rw [if_pos hlen]
      constructor
      · intro h; cases h
      · intro h; omega
    · rw [if_neg hlen]
      split_ifs with h
      · simp only [Bool.and_eq_true, List.any_eq_true] at h
        simp only [true_iff]
        exact ⟨by omega, h.1.1, h.1.2, h.2⟩
      · simp only [Bool.and_eq_true, List.any_eq_true] at h
        constructor
        · intro hc; cases hc
        · rintro ⟨_, h1, h2, h3⟩
          exact absurd ⟨⟨h1, h2⟩, h3⟩ h
  · intro hlen
    rw [validatePassword_eq, if_pos hlen]
  · intro hlen hne
    rw [validatePassword_eq, if_neg (by omega)] at hne ⊢
    split_ifs with h
    · rw [if_pos h] at hne; exact absurd rfl hne
    · rfl
  · intro v h1 h2 h3
    rw [validatePassword_eq, validatePassword_eq, h1, h2, h3]

/-- On the Latin-1 tables: `Abcd123` is too short, `abcdefgh` lacks an
upper-case letter and a number, and `Abcd1234!` is judged the same when every
code point is declared punctuation. -/
theorem validatePassword_policy_witness :
    latin1.Disjoint ∧
    validatePassword latin1 "Abcd123" = some { Message := lengthMessage } ∧
    validatePassword latin1 "abcdefgh" = some { Message := compositionMessage } ∧
    validatePassword { latin1 with IsPunct := fun _ => true } "Abcd1234!"
      = validatePassword latin1 "Abcd1234!" :=
  ⟨latin1_disjoint,
    (validatePassword_policy latin1 latin1_disjoint "Abcd123").2.1 (by decide),
    (validatePassword_policy latin1 latin1_disjoint "abcdefgh").2.2.1 (by decide) (by decide),
    (validatePassword_policy latin1 latin1_disjoint "Abcd1234!").2.2.2.2
      { latin1 with IsPunct := fun _ => true } rfl rfl rfl⟩

/-- An ASCII code point takes one byte in UTF-8. -/
theorem utf8Size_ascii (c : Char) (h : c.toNat < 128) : c.utf8Size = 1 := by
  have h1 : c.val ≤ UInt32.ofNatCore 0x7F (by decide) := by
    rw [UInt32.le_def]
    show c.val.toNat ≤ 127
    have : c.val.toNat = c.toNat := rfl
    omega
  unfold Char.utf8Size
  simp only [h1, if_true]

/-- On an ASCII string the byte length is the number of characters. -/
theorem utf8ByteSize_ascii (p : String) (hp : ∀ c ∈ p.data, c.toNat < 128) :
    p.utf8ByteSize = p.length := by
  obtain ⟨l⟩ := p
  show String.utf8ByteSize.go l = l.length
  induction l with
  | nil => rfl
  | cons c l ih =>
    show String.utf8ByteSize.go l + c.utf8Size = (c :: l).length
    rw [ih (fun d hd => hp d (List.mem_cons_of_mem _ hd)),
      utf8Size_ascii c (hp c (List.mem_cons_self _ _)), List.length_cons]

/-- On ASCII passwords, where bytes and characters coincide, `validatePassword`
is the policy in its plain reading: it accepts exactly the passwords of at
least 8 characters with a letter `A`-`Z`, a letter `a`-`z` and a digit `0`-`9`,
rejects the shorter ones with the length reason and the others with the
composition reason. -/
theorem validatePassword_ascii (u : Unicode) (hu : u.AgreesOnASCII) (p : String)
    (hp : ∀ c ∈ p.data, c.toNat < 128) :
    (validatePassword u p = none ↔
      8 ≤ p.length ∧ (∃ c ∈ p.data, 65 ≤ c.toNat ∧ c.toNat ≤ 90) ∧
        (∃ c ∈ p.data, 97 ≤ c.toNat ∧ c.toNat ≤ 122) ∧
        (∃ c ∈ p.data, 48 ≤ c.toNat ∧ c.toNat ≤ 57)) ∧
    (p.length < 8 → validatePassword u p = some { Message := lengthMessage }) ∧
    (8 ≤ p.length → validatePassword u p ≠ none →
      validatePassword u p = some { Message := compositionMessage }) := by
  have hlen := utf8ByteSize_ascii p hp
  have hU : p.data.any u.IsUpper = true ↔ ∃ c ∈ p.data, 65 ≤ c.toNat ∧ c.toNat ≤ 90 := by
    rw [List.any_eq_true]
    constructor
    · rintro ⟨c, hc, h⟩
      rw [(hu c (hp c hc)).1, decide_eq_true_eq] at h
      exact ⟨c, hc, h⟩
    · rintro ⟨c, hc, h⟩
      refine ⟨c, hc, ?_⟩
      rw [(hu c (hp c hc)).1, decide_eq_true_eq]
      exact h
  have hL : p.data.any (fun c => !u.IsUpper c && u.IsLower c) = true ↔
      ∃ c ∈ p.data, 97 ≤ c.toNat ∧ c.toNat ≤ 122 := by
    rw [List.any_eq_true]
    constructor
    · rintro ⟨c, hc, h⟩
      rw [(hu c (hp c hc)).1, (hu c (hp c hc)).2.1] at h
      simp only [Bool.and_eq_true, Bool.not_eq_true', decide_eq_false_iff_not,
        decide_eq_true_eq] at h
      exact ⟨c, hc, h.2⟩
    · rintro ⟨c, hc, h⟩
      refine ⟨c, hc, ?_⟩
      rw [(hu c (hp c hc)).1, (hu c (hp c hc)).2.1]
      simp only [Bool.and_eq_true, Bool.not_eq_true', decide_eq_false_iff_not,
        decide_eq_true_eq]
      exact ⟨by omega, h⟩
  have hN : p.data.any (fun c => !u.IsUpper c && !u.IsLower c && u.IsNumber c) = true ↔
      ∃ c ∈ p.data, 48 ≤ c.toNat ∧ c.toNat ≤ 57 := by
    rw [List.any_eq_true]
    constructor
    · rintro ⟨c, hc, h⟩
      rw [(hu c (hp c hc)).1, (hu c (hp c hc)).2.1, (hu c (hp c hc)).2.2] at h
      simp only [Bool.and_eq_true, Bool.not_eq_true', decide_eq_false_iff_not,
        decide_eq_true_eq] at h
      exact ⟨c, hc, h.2⟩
    · rintro ⟨c, hc, h⟩
      refine ⟨c, hc, ?_⟩
      rw [(hu c (hp c hc)).1, (hu c (hp c hc)).2.1, (hu c (hp c hc)).2.2]
      simp only [Bool.and_eq_true, Bool.not_eq_true', decide_eq_false_iff_not,
        decide_eq_true_eq]
      exact ⟨⟨by omega, by omega⟩, h⟩
  rw [validatePassword_eq, hlen]
  refine ⟨?_, ?_, ?_⟩
  · by_cases h8 : p.length < 8
    · rw [if_pos h8]
      constructor
      · intro h; cases h
      · intro h; omega
    · rw [if_neg h8]
      split_ifs with h
      · simp only [Bool.and_eq_true] at h
        simp only [true_iff]
        exact ⟨by omega, hU.1 h.1.1, hL.1 h.1.2, hN.1 h.2⟩
      · simp only [Bool.and_eq_true] at h
        constructor
        · intro hc; cases hc
        · rintro ⟨_, h1, h2, h3⟩
          exact absurd ⟨⟨hU.2 h1, hL.2 h2⟩, hN.2 h3⟩ h
  · intro h8
    rw [if_pos h8]
  · intro h8 hne
    rw [if_neg (by omega)] at hne ⊢
    split_ifs with h
    · rw [if_pos h] at hne; exact absurd rfl hne
    · rfl

/-- C7. The code departs from the claim on a password with multi-byte
characters. `Aa1ééé` has 6 characters, fewer than the 8 that the claim, and the
message the code itself returns for the length rule, ask for; it is 9 bytes
long and holds an upper-case letter, a lower-case letter and a digit. The
length test compares bytes, so `validatePassword` accepts it where the claim
requires a rejection with the length reason. -/
theorem validatePassword_counts_bytes :
    ("Aa1ééé" : String).length = 6 ∧ ("Aa1ééé" : String).utf8ByteSize = 9 ∧
      validatePassword latin1 "Aa1ééé" = none := by
  decide

/-! ## C8: CSRF verification consumes the token -/

/-- C8 (as amended). After `VerifyCSRFToken(token)` the token is not in the CSRF
store, whatever the outcome; the call returns true exactly when the token was
in the store and `now` is not after its expiry (the instant of expiry itself
still verifies); every other CSRF token, the sessions, the credential hash and
the attempt records are unchanged. -/
theorem verifyCSRFToken_consumes (am : AuthManager) (token : String) (now : Time) :
    (VerifyCSRFToken am token now).1.csrfTokens.lookup token = none ∧
    ((VerifyCSRFToken am token now).2 = true ↔
        ∃ expiry, am.csrfTokens.lookup token = some expiry ∧ now ≤ expiry) ∧
    (∀ other, other ≠ token →
        (VerifyCSRFToken am token now).1.csrfTokens.lookup other
          = am.csrfTokens.lookup other) ∧
    (VerifyCSRFToken am token now).1.sessions = am.sessions ∧
    (VerifyCSRFToken am token now).1.passwordHash = am.passwordHash ∧
    (VerifyCSRFToken am token now).1.loginAttempts = am.loginAttempts := by
  rw [verifyCSRFToken_fst, verifyCSRFToken_snd]
  refine ⟨AList.lookup_erase _ _, ?_, fun other ho => AList.lookup_erase_ne ho, rfl, rfl, rfl⟩
  cases h : am.csrfTokens.lookup token with
  | none => simp
  | some e =>
    simp only [Time.After, Bool.not_eq_true', decide_eq_false_iff_not, not_lt,
      Option.some.injEq, exists_eq_left', gt_iff_lt]

/-- Verifying `c1` leaves the entry of another key as it was. -/
theorem verifyCSRFToken_consumes_witness :
    (VerifyCSRFToken sample "c1" 50).1.csrfTokens.lookup "s1"
      = sample.csrfTokens.lookup "s1" :=
  (verifyCSRFToken_consumes sample "c1" 50).2.2.1 "s1" (by decide)

/-- C8, the claim as written fails at the instant of expiry: a token whose
expiry is 100 is accepted at time 100, which is not before 100. -/
theorem verifyCSRFToken_accepts_at_expiry :
    sample.csrfTokens.lookup "c1" = some 100 ∧
    (VerifyCSRFToken sample "c1" 100).2 = true ∧
    ¬ (∀ (am : AuthManager) (token : String) (now : Time),
        (VerifyCSRFToken am token now).2 = true →
          ∃ expiry, am.csrfTokens.lookup token = some expiry ∧ now < expiry) := by
  refine ⟨by decide, by decide, ?_⟩
  intro h
  obtain ⟨e, he, hlt⟩ := h sample "c1" 100 (by decide)
  have h100 : sample.csrfTokens.lookup "c1" = some 100 := by decide
  rw [h100] at he
  have h2 : e = 100 := by simpa using he.symm
  rw [h2] at hlt
  exact lt_irrefl _ hlt

/-! ## C9: logout -/

/-- C9. `Logout(t)` is a total state transformer; afterwards `t` is not in the
session store and `VerifySession(t)` is false at every time; a second
`Logout(t)` changes nothing; `Logout` of a token that is not in the store
changes nothing; every other token keeps its entry and its validity. -/
theorem logout_idempotent_removal (am : AuthManager) (t : String) :
    (Logout am t).sessions.lookup t = none ∧
    (∀ now, VerifySession (Logout am t) t now = false) ∧
    Logout (Logout am t) t = Logout am t ∧
    (am.sessions.lookup t = none → Logout am t = am) ∧
    (∀ other, other ≠ t →
        (Logout am t).sessions.lookup other = am.sessions.lookup other ∧
        ∀ now, VerifySession (Logout am t) other now = VerifySession am other now) := by
  have h1 : (Logout am t).sessions.lookup t = none := AList.lookup_erase _ _
  refine ⟨h1, ?_, ?_, ?_, ?_⟩
  · intro now
    unfold VerifySession
    rw [h1]
  · have := goMap_erase_absent (Logout am t).sessions t h1
    unfold Logout at this ⊢
    simp only at this ⊢
    rw [this]
  · intro h
    unfold Logout
    rw [goMap_erase_absent _ _ h]
  · intro other ho
    have h2 : (Logout am t).sessions.lookup other = am.sessions.lookup other :=
      AList.lookup_erase_ne ho
    refine ⟨h2, fun now => ?_⟩
    unfold VerifySession
    rw [h2]

/-- On `sample`: logging out an unknown token changes nothing, and logging out
`s1` leaves the validity of another token as it was. -/
theorem logout_idempotent_removal_witness :
    sample.sessions.lookup "unknown" = none ∧ Logout sample "unknown" = sample ∧
    VerifySession (Logout sample "s1") "s2" 50 = VerifySession sample "s2" 50 :=
  ⟨by decide, (logout_idempotent_removal sample "unknown").2.2.2.1 (by decide),
    ((logout_idempotent_removal sample "s1").2.2.2.2 "s2" (by decide)).2 50⟩

/-! ## C10: the reclaimer sweep -/

/-- C10. `cleanup()` at time `now` keeps a session exactly when `now` is not
after its expiry, and likewise a CSRF token, each kept entry with its expiry
unchanged; for every address it keeps, in their original order, exactly the
attempts less than 15 minutes old and drops the address when none is left; the
credential hash is unchanged. So when every expiry has passed and every
recorded attempt is outside the window, the three maps are empty afterwards. -/
theorem cleanup_sweeps_exactly_the_expired (am : AuthManager) (now : Time) :
    (∀ token, (cleanup am now).sessions.lookup token
        = (am.sessions.lookup token).filter (fun expiry => !Time.After now expiry)) ∧
    (∀ token, (cleanup am now).csrfTokens.lookup token
        = (am.csrfTokens.lookup token).filter (fun expiry => !Time.After now expiry)) ∧
    (∀ ip, (cleanup am now).loginAttempts.lookup ip
        = (am.loginAttempts.lookup ip).bind (fun attempts =>
            if attempts.filter (fun a => decide (now - a < loginWindow)) = [] then none
            else some (attempts.filter (fun a => decide (now - a < loginWindow))))) ∧
    (cleanup am now).passwordHash = am.passwordHash ∧
    loginWindow = 15 * 60 * 1000000000 ∧
    ((∀ token expiry, am.sessions.lookup token = some expiry → now > expiry) →
     (∀ token expiry, am.csrfTokens.lookup token = some expiry → now > expiry) →
     (∀ ip attempts, am.loginAttempts.lookup ip = some attempts →
        ∀ a ∈ attempts, ¬ now - a < loginWindow) →
     (cleanup am now).sessions = ∅ ∧ (cleanup am now).csrfTokens = ∅ ∧
       (cleanup am now).loginAttempts = ∅) := by
  have hS : ∀ token, (cleanup am now).sessions.lookup token
      = (am.sessions.lookup token).filter (fun expiry => !Time.After now expiry) :=
    fun token => lookup_sweepExpired now am.sessions token
  have hC : ∀ token, (cleanup am now).csrfTokens.lookup token
      = (am.csrfTokens.lookup token).filter (fun expiry => !Time.After now expiry) :=
    fun token => lookup_sweepExpired now am.csrfTokens token
  have hA : ∀ ip, (cleanup am now).loginAttempts.lookup ip
      = (am.loginAttempts.lookup ip).bind (fun attempts =>
          if attempts.filter (fun a => decide (now - a < loginWindow)) = [] then none
          else some (attempts.filter (fun a => decide (now - a < loginWindow)))) := by
    intro ip
    have h := lookup_sweepAttempts now am.loginAttempts ip
    have hp : prunedEntry now = fun attempts =>
        if attempts.filter (fun a => decide (now - a < loginWindow)) = [] then none
        else some (attempts.filter (fun a => decide (now - a < loginWindow))) := by
      funext attempts
      simp only [prunedEntry, validAttempts_eq_filter, List.length_eq_zero]
    rw [hp] at h
    exact h
  refine ⟨hS, hC, hA, rfl, by norm_num [loginWindow, Minute, Second], ?_⟩
  intro h1 h2 h3
  refine ⟨goMap_eq_empty _ ?_, goMap_eq_empty _ ?_, goMap_eq_empty _ ?_⟩
  · intro k
    rw [hS]
    cases h : am.sessions.lookup k with
    | none => rfl
    | some e => simp [Option.filter, Time.After, h1 k e h]
  · intro k
    rw [hC]
    cases h : am.csrfTokens.lookup k with
    | none => rfl
    | some e => simp [Option.filter, Time.After, h2 k e h]
  · intro k
    rw [hA]
    cases h : am.loginAttempts.lookup k with
    | none => rfl
    | some l =>
      have : l.filter (fun a => decide (now - a < loginWindow)) = [] := by
        rw [List.filter_eq_nil_iff]
        intro a ha
        simpa using h3 k l h a ha
      rw [Option.some_bind, if_pos this]

/-- On `sample`, whose expiries are 100 and whose attempts are at 10 and 20, a
sweep at 15 minutes and 21 nanoseconds empties the three maps. -/
theorem cleanup_sweeps_exactly_the_expired_witness :
    (cleanup sample 900000000021).sessions = ∅ ∧
    (cleanup sample 900000000021).csrfTokens = ∅ ∧
    (cleanup sample 900000000021).loginAttempts = ∅ :=
  (cleanup_sweeps_exactly_the_expired sample 900000000021).2.2.2.2.2
    (by
      intro token expiry h
      by_cases ht : token = "s1"
      · subst ht
        have h0 : sample.sessions.lookup "s1" = some 100 := by decide
        rw [h0] at h
        have : expiry = 100 := by simpa using h.symm
        rw [this]; decide
      · have h0 : sample.sessions.lookup token = none := by
          unfold sample
          rw [AList.lookup_insert_ne ht]; rfl
        rw [h0] at h; cases h)
    (by
      intro token expiry h
      by_cases ht : token = "c1"
      · subst ht
        have h0 : sample.csrfTokens.lookup "c1" = some 100 := by decide
        rw [h0] at h
        have : expiry = 100 := by simpa using h.symm
        rw [this]; decide
      · have h0 : sample.csrfTokens.lookup token = none := by
          unfold sample
          rw [AList.lookup_insert_ne ht]; rfl
        rw [h0] at h; cases h)
    (by
      intro ip attempts h a ha
      by_cases ht : ip = "10.0.0.1"
      · subst ht
        have h0 : sample.loginAttempts.lookup "10.0.0.1" = some [10, 20] := by decide
        rw [h0] at h
        have : attempts = [10, 20] := by simpa using h.symm
        rw [this] at ha
        rw [loginWindow_eq]
        simp only [List.mem_cons, List.mem_singleton, List.not_mem_nil, or_false] at ha
        rcases ha with rfl | rfl <;> decide
      · have h0 : sample.loginAttempts.lookup ip = none := by
          unfold sample
          rw [AList.lookup_insert_ne ht]; rfl
        rw [h0] at h; cases h)

/-! ## C11: results do not depend on the sweep -/

/-- C11. Let `now` be the time of a sweep and `t` a time not before it. Then
`VerifySession(tok)` at `t`, `VerifyCSRFToken(tok)` at `t` and
`Login(password, ip)` whose clock readings start at `t` return the same result
from the state swept at `now` as from the unswept state. -/
theorem results_do_not_depend_on_sweep (bc : Bcrypt) (am : AuthManager) (now : Time) :
    (∀ (tok : String) (t : Time), now ≤ t →
      VerifySession (cleanup am now) tok t = VerifySession am tok t) ∧
    (∀ (tok : String) (t : Time), now ≤ t →
      (VerifyCSRFToken (cleanup am now) tok t).2 = (VerifyCSRFToken am tok t).2) ∧
    (∀ (password ip : String) (t t₂ : Time) (tok : String), now ≤ t →
      (Login bc (cleanup am now) password ip t t₂ tok).2
        = (Login bc am password ip t t₂ tok).2) := by
  refine ⟨?_, ?_, ?_⟩
  · intro tok t ht
    unfold VerifySession
    show (match (sweepExpired now am.sessions).lookup tok with
      | none => false
      | some expiry => Time.Before t expiry) = _
    rw [lookup_sweepExpired]
    cases hl : am.sessions.lookup tok with
    | none => rfl
    | some e =>
      by_cases he : now > e
      · have h1 : ¬ t < e := not_lt.2 (le_trans (le_of_lt he) ht)
        simp [Option.filter, Time.After, Time.Before, he, h1]
      · simp [Option.filter, Time.After, he]
  · intro tok t ht
    rw [verifyCSRFToken_snd, verifyCSRFToken_snd]
    show (match (sweepExpired now am.csrfTokens).lookup tok with
      | none => false
      | some expiry => !Time.After t expiry) = _
    rw [lookup_sweepExpired]
    cases hl : am.csrfTokens.lookup tok with
    | none => rfl
    | some e =>
      by_cases he : now > e
      · have h1 : t > e := lt_of_lt_of_le he ht
        simp [Option.filter, Time.After, he, h1]
      · simp [Option.filter, Time.After, he]
  · intro password ip t t₂ tok ht
    rw [login_snd, login_snd, isRateLimited_cleanup am ip now t ht]
    rfl

/-- On `sample`, swept at a time when everything in it is stale: the session
`s1`, the CSRF token `c1` and a login from `10.0.0.1` answer the same with and
without the sweep. -/
theorem results_do_not_depend_on_sweep_witness :
    VerifySession (cleanup sample 900000000021) "s1" 900000000030
      = VerifySession sample "s1" 900000000030 ∧
    (VerifyCSRFToken (cleanup sample 900000000021) "c1" 900000000030).2
      = (VerifyCSRFToken sample "c1" 900000000030).2 ∧
    (Login tagBcrypt (cleanup sample 900000000021) "admin123" "10.0.0.1" 900000000030
        900000000031 "tok").2
      = (Login tagBcrypt sample "admin123" "10.0.0.1" 900000000030 900000000031 "tok").2 :=
  have h := results_do_not_depend_on_sweep tagBcrypt sample 900000000021
  ⟨h.1 "s1" 900000000030 (by decide), h.2.1 "c1" 900000000030 (by decide),
    h.2.2 "admin123" "10.0.0.1" 900000000030 900000000031 "tok" (by decide)⟩

/-! ## C12: the CSRF gate -/

/-- C12 (as amended). The handler returned by `CSRFMiddleware(next)`: on `GET`
and `HEAD` it is `next` itself, run on the untouched manager. On every other
method, the safe methods `OPTIONS` and `TRACE` included, it takes
the token from the form field `csrf_token`, or from the header `X-CSRF-Token`
when the form field is empty, and calls `VerifyCSRFToken` on it: when that
returns true the handler is `next` run on the manager left by the verification;
when it returns false the handler answers `http.Error` with status 403 and does
not depend on `next`. With a downstream handler that raises a flag, the flag is
raised exactly when the method is `GET` or `HEAD` or the verification returns
true. -/
theorem csrfMiddleware_gate {W : Type} (httpError : W → String → Nat → W)
    (next : HandlerFunc W) (now : Time) (w : W) (am : AuthManager) (r : Request)
    (token : String)
    (htoken : token = if r.FormValue "csrf_token" = "" then r.HeaderGet "X-CSRF-Token"
      else r.FormValue "csrf_token") :
    (r.Method = "GET" ∨ r.Method = "HEAD" →
      CSRFMiddleware httpError next now w am r = next w am r) ∧
    (¬ (r.Method = "GET" ∨ r.Method = "HEAD") →
      ((VerifyCSRFToken am token now).2 = true →
        CSRFMiddleware httpError next now w am r
          = next w (VerifyCSRFToken am token now).1 r) ∧
      ((VerifyCSRFToken am token now).2 = false →
        CSRFMiddleware httpError next now w am r
          = (httpError w "Invalid CSRF token" 403, (VerifyCSRFToken am token now).1) ∧
        ∀ other : HandlerFunc W,
          CSRFMiddleware httpError other now w am r
            = CSRFMiddleware httpError next now w am r)) ∧
    ((CSRFMiddleware flagError flagHandler now false am r).1 = true ↔
      (r.Method = "GET" ∨ r.Method = "HEAD") ∨ (VerifyCSRFToken am token now).2 = true) := by
  subst htoken
  refine ⟨?_, ?_, ?_⟩
  · intro hm
    unfold CSRFMiddleware
    rw [if_pos hm]
  · intro hm
    constructor
    · intro hv
      rw [csrfMiddleware_gated httpError next now w am r hm, if_pos hv]
    · intro hv
      have hne : ¬ (VerifyCSRFToken am
          (if r.FormValue "csrf_token" = "" then r.HeaderGet "X-CSRF-Token"
            else r.FormValue "csrf_token") now).2 = true := by
        rw [hv]; exact Bool.false_ne_true
      refine ⟨?_, fun other => ?_⟩
      · rw [csrfMiddleware_gated httpError next now w am r hm, if_neg hne]
      · rw [csrfMiddleware_gated httpError next now w am r hm,
          csrfMiddleware_gated httpError other now w am r hm, if_neg hne, if_neg hne]
  · by_cases hm : r.Method = "GET" ∨ r.Method = "HEAD"
    · have h1 : CSRFMiddleware flagError flagHandler now false am r
          = flagHandler false am r := by
        unfold CSRFMiddleware
        rw [if_pos hm]
      rw [h1]
      simp [flagHandler, hm]
    · rw [csrfMiddleware_gated flagError flagHandler now false am r hm]
      cases hv : (VerifyCSRFToken am
          (if r.FormValue "csrf_token" = "" then r.HeaderGet "X-CSRF-Token"
            else r.FormValue "csrf_token") now).2
      · simp [flagError, hm]
      · simp [flagHandler]

/-- On `sample`, whose CSRF store holds `c1`: a `GET` passes without a token and
leaves `c1` in the store; a `POST` passes with `c1` in the form field, and with
`c1` in the header only, and consumes it; a `DELETE` without a token is
answered by the error and the flag stays down. -/
theorem csrfMiddleware_gate_witness :
    CSRFMiddleware flagError flagHandler 50 false sample plainGet = (true, sample) ∧
    CSRFMiddleware flagError flagHandler 50 false sample postWithForm
      = (true, (VerifyCSRFToken sample "c1" 50).1) ∧
    CSRFMiddleware flagError flagHandler 50 false sample postWithHeader
      = (true, (VerifyCSRFToken sample "c1" 50).1) ∧
    CSRFMiddleware flagError flagHandler 50 false sample plainDelete
      = (false, (VerifyCSRFToken sample "" 50).1) ∧
    (CSRFMiddleware flagError flagHandler 50 false sample plainDelete).1 = false :=
  ⟨(csrfMiddleware_gate flagError flagHandler 50 false sample plainGet "" rfl).1
      (Or.inl rfl),
    ((csrfMiddleware_gate flagError flagHandler 50 false sample postWithForm "c1" rfl).2.1
      (by decide)).1 (by decide),
    ((csrfMiddleware_gate flagError flagHandler 50 false sample postWithHeader "c1" rfl).2.1
      (by decide)).1 (by decide),
    (((csrfMiddleware_gate flagError flagHandler 50 false sample plainDelete "" rfl).2.1
      (by decide)).2 (by decide)).1,
    by
      have h := (csrfMiddleware_gate flagError flagHandler 50 false sample plainDelete ""
        rfl).2.2
      cases hb : (CSRFMiddleware flagError flagHandler 50 false sample plainDelete).1 with
      | false => rfl
      | true =>
        rcases h.1 hb with h1 | h1
        · exact absurd h1 (by decide)
        · exact absurd h1 (by decide)⟩

/-- C12, the claim as written fails on the safe methods other than `GET` and
`HEAD`: an `OPTIONS` request, and a `TRACE` request, without a token is
answered with status 403 and the downstream handler is not run. -/
theorem csrfMiddleware_gates_options_and_trace :
    plainOptions.Method = "OPTIONS" ∧
    (CSRFMiddleware flagError flagHandler 50 false sample plainOptions).1 = false ∧
    (CSRFMiddleware statusError statusHandler 50 none sample plainOptions).1 = some 403 ∧
    plainTrace.Method = "TRACE" ∧
    (CSRFMiddleware flagError flagHandler 50 false sample plainTrace).1 = false ∧
    (CSRFMiddleware statusError statusHandler 50 none sample plainTrace).1 = some 403 := by
  decide

/-! ## C13: the sliding window -/

/-- C13. `isRateLimited(ip)` at time `now` returns true exactly when at least 5
of the attempts recorded for `ip` are less than 15 minutes old at `now` (for
attempts not later than `now`: made after `now - 15min`); afterwards the record
of `ip` holds exactly those attempts, in their original order, the records of
the other addresses and the other fields are unchanged. So an address that was
blocked is let through at any time at which fewer than 5 of its recorded
failures are still inside the window. -/
theorem isRateLimited_sliding_window (am : AuthManager) (ip : String) (now : Time) :
    ((isRateLimited am ip now).2 = true ↔
      5 ≤ ((am.loginAttempts.lookup ip).getD []).countP
        (fun a => decide (now - a < loginWindow))) ∧
    (isRateLimited am ip now).1.loginAttempts.lookup ip
      = (am.loginAttempts.lookup ip).map
          (fun attempts => attempts.filter (fun a => decide (now - a < loginWindow))) ∧
    (∀ other, other ≠ ip →
      (isRateLimited am ip now).1.loginAttempts.lookup other
        = am.loginAttempts.lookup other) ∧
    (isRateLimited am ip now).1.passwordHash = am.passwordHash ∧
    (isRateLimited am ip now).1.sessions = am.sessions ∧
    (isRateLimited am ip now).1.csrfTokens = am.csrfTokens ∧
    loginWindow = 15 * 60 * 1000000000 ∧ maxLoginAttempts = 5 ∧
    (∀ a : Time, a ≤ now → (now - a < loginWindow ↔ now - loginWindow < a ∧ a ≤ now)) ∧
    ((isRateLimited am ip now).2 = true → ∀ later : Time,
      ((am.loginAttempts.lookup ip).getD []).countP
          (fun a => decide (later - a < loginWindow)) < 5 →
      (isRateLimited (isRateLimited am ip now).1 ip later).2 = false) := by
  have hiff : ∀ (s : AuthManager) (t : Time), ((isRateLimited s ip t).2 = true ↔
      5 ≤ ((s.loginAttempts.lookup ip).getD []).countP
        (fun a => decide (t - a < loginWindow))) := by
    intro s t
    rw [isRateLimited_snd]
    cases h : s.loginAttempts.lookup ip with
    | none => simp
    | some l =>
      simp only [maxLoginAttempts, decide_eq_true_eq, Option.getD_some,
        validAttempts_eq_filter, List.countP_eq_length_filter]
  have hmap : (isRateLimited am ip now).1.loginAttempts.lookup ip
      = (am.loginAttempts.lookup ip).map
          (fun attempts => attempts.filter (fun a => decide (now - a < loginWindow))) := by
    have h := isRateLimited_fst_attempts am ip now ip
    rw [if_pos rfl] at h
    rw [h]
    congr 1
    funext l
    exact validAttempts_eq_filter now l
  obtain ⟨f1, f2, f3, _⟩ := isRateLimited_fst_fields am ip now
  refine ⟨hiff am now, hmap, ?_, f1, f2, f3, by norm_num [loginWindow, Minute, Second], rfl,
    ?_, ?_⟩
  · intro other ho
    have h := isRateLimited_fst_attempts am ip now other
    rw [if_neg ho] at h
    exact h
  · intro a ha
    constructor
    · intro h
      exact ⟨by linarith, ha⟩
    · intro h
      linarith [h.1]
  · intro _ later hlt
    cases hb : (isRateLimited (isRateLimited am ip now).1 ip later).2 with
    | false => rfl
    | true =>
      exfalso
      have h5 := (hiff _ later).1 hb
      rw [hmap] at h5
      cases hl : am.loginAttempts.lookup ip with
      | none => rw [hl] at h5; simp at h5
      | some l =>
        rw [hl] at h5 hlt
        simp only [Option.map_some', Option.getD_some] at h5 hlt
        have hle : (l.filter (fun a => decide (now - a < loginWindow))).countP
            (fun a => decide (later - a < loginWindow))
              ≤ l.countP (fun a => decide (later - a < loginWindow)) :=
          List.Sublist.countP_le _ (List.filter_sublist l)
        omega

/-- Five failures at the instants 0 to 4 block the address at time 10; one
nanosecond past 15 minutes and two, only the two failures at 3 and 4 are left
inside the window and the address is let through. -/
theorem isRateLimited_sliding_window_witness :
    (isRateLimited fiveFailures "10.0.0.1" 10).2 = true ∧
    (isRateLimited (isRateLimited fiveFailures "10.0.0.1" 10).1 "10.0.0.1" 900000000003).2
      = false ∧
    (isRateLimited fiveFailures "10.0.0.1" 10).1.loginAttempts.lookup "10.0.0.2"
      = fiveFailures.loginAttempts.lookup "10.0.0.2" ∧
    ((10 : Time) - 4 < loginWindow ↔ 10 - loginWindow < 4 ∧ (4 : Time) ≤ 10) :=
  have h := isRateLimited_sliding_window fiveFailures "10.0.0.1" 10
  ⟨by decide, h.2.2.2.2.2.2.2.2.2 (by decide) 900000000003 (by decide),
    h.2.2.1 "10.0.0.2" (by decide), h.2.2.2.2.2.2.2.2.1 4 (by decide)⟩

end Auth
